import Mathlib

/-!
Verification development for the Minirel-lineage storage core:
the clock-policy buffer pool manager (`buf.C`) and the heap file layer
(`heapfile.C`, two variants).  Buffer-manager and heap-file routines are
translated from the C sources; the external DB/File layer and the slotted
`Page` abstraction (whose sources are not part of the repository) are
modelled from the specification, as marked on each definition.
-/

namespace Minirel

/-- Status codes of `error.h` (the subset reachable from the modelled core). -/
inductive Status where
  | OK
  | FILEEXISTS
  | FILEEOF
  | BUFFEREXCEEDED
  | PAGENOTPINNED
  | PAGEPINNED
  | HASHNOTFOUND
  | HASHTBLERROR
  | UNIXERR
  | BADPAGENO
  | BADRID
  | BADSCANPARM
  | BADSCANID
  | BADBUFFER
  | INVALIDRECLEN
  | NOSPACE
  | ENDOFPAGE
  | NORECORDS
  | BADFILE
  | INVALIDSLOTNO
  deriving DecidableEq

/-- Compile-time constant of the page layer (`page.h`, external).
Modelled from the spec: a page is `PAGESIZE` bytes. -/
def PAGESIZE : Nat := 1024

/-- Modelled from the spec: `DPFIXED` bytes of every data page are consumed
by the slotted-page header. -/
def DPFIXED : Nat := 20

/-- Modelled from the spec: bound on the stored heap-file name
(`fileName[MAXNAMESIZE]`, null-terminated). -/
def MAXNAMESIZE : Nat := 50

/-- A file is identified by its name at the DB layer; `DB::openFile` returns
the same `File*` for the same open name, so pointer identity coincides with
name identity.  Names are byte lists. -/
abbrev FileName := List Nat

/-- A record: the C `Record` is a `(data, length)` pair borrowing page bytes.
`tag` stands for the record's payload identity; `len` is `Record::length`.
(The byte-level payload is irrelevant to every property proved here.) -/
structure Rec where
  len : Nat
  tag : Nat
  deriving DecidableEq

/-- Record identifier `(pageNo, slotNo)`. -/
structure RID where
  pageNo : Int
  slotNo : Int
  deriving DecidableEq

/-- The sentinel RID `(-1, -1)`. -/
def NULLRID : RID := ⟨-1, -1⟩

/-- The persistent heap-file header (`FileHdrPage` of `heapfile.h`). -/
structure FileHdr where
  fileName : List Nat
  pageCnt : Int
  recCnt : Int
  firstPage : Int
  lastPage : Int
  deriving DecidableEq

/-- Modelled from the spec: the slotted data page (external `Page` class).
`pageNo` is the page's own number (set by `Page::init`), `nextPage` the
linked-list pointer (`-1` terminates), `slots` the slot directory
(`none` = freed slot), `free` the remaining free bytes. -/
structure DataPage where
  pageNo : Int
  nextPage : Int
  slots : List (Option Rec)
  free : Nat
  deriving DecidableEq

/-- The raw bytes of one page frame, as the heap layer reinterprets them:
either untouched fresh bytes, a heap-file header, or a slotted data page. -/
inductive PageM where
  | raw
  | hdr (h : FileHdr)
  | data (d : DataPage)
  deriving DecidableEq

/-- Association-list lookup (first match wins), keyed by decidable equality. -/
def alookup {α β : Type} [DecidableEq α] : List (α × β) → α → Option β
  | [], _ => none
  | (k, v) :: rest, k' => if k = k' then some v else alookup rest k'

/-- Remove the first entry with the given key. -/
def aremove {α β : Type} [DecidableEq α] : List (α × β) → α → List (α × β)
  | [], _ => []
  | (k, v) :: rest, k' => if k = k' then rest else (k, v) :: aremove rest k'

/-- Replace the value of the first entry with the given key. -/
def aupdate {α β : Type} [DecidableEq α] : List (α × β) → α → β → List (α × β)
  | [], _, _ => []
  | (k, v) :: rest, k', v' => if k = k' then (k', v') :: rest else (k, v) :: aupdate rest k' v'

theorem alookup_aremove_ne {α β : Type} [DecidableEq α] (l : List (α × β)) (k k' : α)
    (h : k ≠ k') : alookup (aremove l k) k' = alookup l k' := by
  induction l with
  | nil => rfl
  | cons hd tl ih =>
    obtain ⟨a, b⟩ := hd
    by_cases hak : a = k
    · subst hak
      simp [aremove, alookup, if_neg h]
    · simp only [aremove, alookup, if_neg hak]
      by_cases hak' : a = k'
      · simp [alookup, if_pos hak']
      · simp [alookup, if_neg hak', ih]

theorem alookup_aupdate_ne {α β : Type} [DecidableEq α] (l : List (α × β)) (k k' : α) (v : β)
    (h : k ≠ k') : alookup (aupdate l k v) k' = alookup l k' := by
  induction l with
  | nil => rfl
  | cons hd tl ih =>
    obtain ⟨a, b⟩ := hd
    by_cases hak : a = k
    · subst hak
      simp [aupdate, alookup, if_neg h]
    · simp only [aupdate, if_neg hak]
      by_cases hak' : a = k'
      · simp [alookup, if_pos hak']
      · simp [alookup, if_neg hak', ih]

theorem aupdate_self {α β : Type} [DecidableEq α] (l : List (α × β)) (k : α) (v : β)
    (h : alookup l k = some v) : aupdate l k v = l := by
  induction l with
  | nil => simp [alookup] at h
  | cons hd tl ih =>
    obtain ⟨a, b⟩ := hd
    by_cases hak : a = k
    · subst hak
      simp [alookup] at h
      simp [aupdate, h]
    · simp only [alookup, if_neg hak] at h
      simp [aupdate, if_neg hak, ih h]

/-- Modelled from the spec: first used slot of the slot directory at index
`start` or later (`Page::firstRecord` / `Page::nextRecord` search). -/
def findSlot : List (Option Rec) → Nat → Option Nat
  | [], _ => none
  | some _ :: _, 0 => some 0
  | none :: rest, 0 => (findSlot rest 0).map (· + 1)
  | _ :: rest, n + 1 => (findSlot rest n).map (· + 1)

/-- Modelled from the spec: `Page::firstRecord` — RID of the first record, or
`NORECORDS` when the page holds none.  (On failure the C out-parameter is
left undefined; the model returns `NULLRID`.) -/
def PageM.firstRecord : PageM → Status × RID
  | .data d =>
    match findSlot d.slots 0 with
    | some k => (.OK, ⟨d.pageNo, (k : Int)⟩)
    | none => (.NORECORDS, NULLRID)
  | _ => (.BADPAGENO, NULLRID)

/-- Modelled from the spec: `Page::nextRecord` — RID of the next used slot
after `cur`, or `ENDOFPAGE`. -/
def PageM.nextRecord (p : PageM) (cur : RID) : Status × RID :=
  match p with
  | .data d =>
    match findSlot d.slots (cur.slotNo + 1).toNat with
    | some k => (.OK, ⟨d.pageNo, (k : Int)⟩)
    | none => (.ENDOFPAGE, NULLRID)
  | _ => (.BADPAGENO, NULLRID)

/-- Modelled from the spec: `Page::getRecord` — the record stored in the
given slot. -/
def PageM.getRecord (p : PageM) (rid : RID) : Status × Option Rec :=
  match p with
  | .data d =>
    if rid.slotNo < 0 then (.INVALIDSLOTNO, none)
    else
      match d.slots.get? rid.slotNo.toNat with
      | some (some r) => (.OK, some r)
      | _ => (.INVALIDSLOTNO, none)
  | _ => (.INVALIDSLOTNO, none)

/-- Modelled from the spec: `Page::insertRecord` — append the record into a
fresh slot if it fits in the remaining free space, else `NOSPACE`. -/
def PageM.insertRecord (p : PageM) (rec : Rec) : Status × RID × PageM :=
  match p with
  | .data d =>
    if d.free < rec.len then (.NOSPACE, NULLRID, p)
    else
      (.OK, ⟨d.pageNo, (d.slots.length : Int)⟩,
        .data { d with slots := d.slots ++ [some rec], free := d.free - rec.len })
  | _ => (.NOSPACE, NULLRID, p)

/-- Modelled from the spec: `Page::getNextPage`. -/
def PageM.getNextPage : PageM → Status × Int
  | .data d => (.OK, d.nextPage)
  | _ => (.BADPAGENO, -1)

/-- Modelled from the spec: `Page::setNextPage`. -/
def PageM.setNextPage (p : PageM) (n : Int) : Status × PageM :=
  match p with
  | .data d => (.OK, .data { d with nextPage := n })
  | _ => (.BADPAGENO, p)

/-- Modelled from the spec: `Page::init(pageNo)` — an empty slotted data page
with next-page pointer `-1` and `PAGESIZE − DPFIXED` free bytes. -/
def Page.init (pageNo : Int) : PageM :=
  .data ⟨pageNo, -1, [], PAGESIZE - DPFIXED⟩

/-- One buffer frame: the `BufDesc` descriptor (`buf.h`) together with the
`bufPool` page payload it guards.  `file = none` models a NULL `File*`. -/
structure Frame where
  file : Option FileName
  pageNo : Int
  pinCnt : Nat
  dirty : Bool
  refbit : Bool
  valid : Bool
  page : PageM
  deriving DecidableEq

/-- Modelled from the spec: `BufDesc::Clear()` — reset the descriptor
(`valid=false, pinCnt=0, dirty=false, refbit=false`, identity nulled). -/
def Frame.Clear (fr : Frame) : Frame :=
  { fr with file := none, pageNo := -1, pinCnt := 0, dirty := false, refbit := false,
            valid := false }

/-- Modelled from the spec: `BufDesc::Set(file, pageNo)` — install a new
identity with `pinCnt = 1`, `refbit = true`, `valid = true`, `dirty = false`. -/
def Frame.Set (fr : Frame) (f : Option FileName) (p : Int) : Frame :=
  { fr with file := f, pageNo := p, pinCnt := 1, refbit := true, valid := true,
            dirty := false }

/-- Per-file on-disk state at the DB/File layer (modelled from the spec:
the provider hands out page numbers, reports the first page, and reads and
writes pages by number).  `openCnt` counts outstanding `openFile` calls. -/
structure FileData where
  firstPageNo : Int
  nextPageNo : Int
  pages : List (Int × PageM)
  openCnt : Nat
  deriving DecidableEq

/-- Hash-table key: `(File*, pageNo)`. -/
abbrev HKey := Option FileName × Int

/-- The whole modelled machine: the buffer pool (`BufMgr` fields) plus the
disk as seen through the file provider. -/
structure World where
  numBufs : Nat
  bufTable : List Frame
  clockHand : Nat
  hashTable : List (HKey × Nat)
  disk : List (FileName × FileData)
  deriving DecidableEq

def World.getFrame (w : World) (i : Nat) : Option Frame := w.bufTable.get? i

def World.setFrame (w : World) (i : Nat) (fr : Frame) : World :=
  { w with bufTable := w.bufTable.set i fr }

/-- Modelled from the spec: `DB::openFile` — succeeds iff the file exists. -/
def DB.openFile (w : World) (name : FileName) : Status × Option FileName × World :=
  match alookup w.disk name with
  | some fd =>
    (.OK, some name, { w with disk := aupdate w.disk name { fd with openCnt := fd.openCnt + 1 } })
  | none => (.UNIXERR, none, w)

/-- Modelled from the spec: `DB::closeFile`. -/
def DB.closeFile (w : World) (f : Option FileName) : Status × World :=
  match f with
  | none => (.BADFILE, w)
  | some name =>
    match alookup w.disk name with
    | some fd =>
      (.OK, { w with disk := aupdate w.disk name { fd with openCnt := fd.openCnt - 1 } })
    | none => (.BADFILE, w)

/-- Modelled from the spec: `DB::createFile` — create an empty file. -/
def DB.createFile (w : World) (name : FileName) : Status × World :=
  match alookup w.disk name with
  | some _ => (.FILEEXISTS, w)
  | none => (.OK, { w with disk := w.disk ++ [(name, ⟨-1, 1, [], 0⟩)] })

/-- Modelled from the spec: `File::getFirstPage` — the file's first page
number (`-1` when the file holds no pages). -/
def File.getFirstPage (w : World) (f : Option FileName) : Status × Int :=
  match f with
  | none => (.UNIXERR, -1)
  | some name =>
    match alookup w.disk name with
    | some fd => (.OK, fd.firstPageNo)
    | none => (.UNIXERR, -1)

/-- Modelled from the spec: `File::allocatePage` — hand out the next page
number and add a fresh (uninitialized) page to the file. -/
def File.allocatePage (w : World) (f : Option FileName) : Status × Int × World :=
  match f with
  | none => (.UNIXERR, -1, w)
  | some name =>
    match alookup w.disk name with
    | some fd =>
      let fd' : FileData :=
        { fd with nextPageNo := fd.nextPageNo + 1,
                  pages := fd.pages ++ [(fd.nextPageNo, PageM.raw)],
                  firstPageNo := if fd.firstPageNo = -1 then fd.nextPageNo else fd.firstPageNo }
      (.OK, fd.nextPageNo, { w with disk := aupdate w.disk name fd' })
    | none => (.UNIXERR, -1, w)

/-- Modelled from the spec: `File::readPage` — fails (`UNIXERR`) on a page
number the file does not hold. -/
def File.readPage (w : World) (f : Option FileName) (p : Int) : Status × Option PageM :=
  match f with
  | none => (.UNIXERR, none)
  | some name =>
    match alookup w.disk name with
    | some fd =>
      match alookup fd.pages p with
      | some pg => (.OK, some pg)
      | none => (.UNIXERR, none)
    | none => (.UNIXERR, none)

/-- Modelled from the spec: `File::writePage`. -/
def File.writePage (w : World) (f : Option FileName) (p : Int) (pg : PageM) : Status × World :=
  match f with
  | none => (.UNIXERR, w)
  | some name =>
    match alookup w.disk name with
    | some fd =>
      match alookup fd.pages p with
      | some _ =>
        (.OK, { w with disk := aupdate w.disk name { fd with pages := aupdate fd.pages p pg } })
      | none => (.UNIXERR, w)
    | none => (.UNIXERR, w)

/-- Modelled from the spec: `File::disposePage`. -/
def File.disposePage (w : World) (f : Option FileName) (p : Int) : Status × World :=
  match f with
  | none => (.UNIXERR, w)
  | some name =>
    match alookup w.disk name with
    | some fd =>
      match alookup fd.pages p with
      | some _ =>
        (.OK, { w with disk := aupdate w.disk name { fd with pages := aremove fd.pages p } })
      | none => (.UNIXERR, w)
    | none => (.UNIXERR, w)

/-- `BufHashTbl::lookup`. -/
def hLookup (tbl : List (HKey × Nat)) (k : HKey) : Option Nat := alookup tbl k

/-- `BufHashTbl::insert` — `HASHTBLERROR` on a duplicate key. -/
def hInsert (tbl : List (HKey × Nat)) (k : HKey) (v : Nat) : Status × List (HKey × Nat) :=
  match alookup tbl k with
  | some _ => (.HASHTBLERROR, tbl)
  | none => (.OK, (k, v) :: tbl)

/-- `BufHashTbl::remove` — `HASHNOTFOUND` on a missing key. -/
def hRemove (tbl : List (HKey × Nat)) (k : HKey) : Status × List (HKey × Nat) :=
  match alookup tbl k with
  | some _ => (.OK, aremove tbl k)
  | none => (.HASHNOTFOUND, tbl)

/-- `BufMgr::advanceClock` — move the clock hand one frame forward. -/
def advanceClock (w : World) : World :=
  { w with clockHand := (w.clockHand + 1) % w.numBufs }

/-- The eviction tail of `BufMgr::allocBuf`: remove the victim's hash entry
(`HASHTBLERROR` on failure) and `Clear()` its descriptor, returning the
clock hand as the chosen frame (the hand is not advanced here, as in the
source). -/
def evictFrame (w : World) (fr : Frame) : Status × Option Nat × World :=
  match hRemove w.hashTable (fr.file, fr.pageNo) with
  | (.OK, tbl) =>
    (.OK, some w.clockHand, World.setFrame { w with hashTable := tbl } w.clockHand fr.Clear)
  | _ => (.HASHTBLERROR, none, w)

/-- The clock walk of `BufMgr::allocBuf` (`for (int i = 0; i < numBufs * 2; ++i)`),
translated with the remaining iteration count as fuel. -/
def allocBufLoop : Nat → World → Status × Option Nat × World
  | 0, w => (.BUFFEREXCEEDED, none, w)
  | fuel + 1, w =>
    match w.getFrame w.clockHand with
    | none => (.BUFFEREXCEEDED, none, w)
    | some tmpbuf =>
      if tmpbuf.valid = false then (.OK, some w.clockHand, advanceClock w)
      else if tmpbuf.refbit then
        allocBufLoop fuel (advanceClock (w.setFrame w.clockHand { tmpbuf with refbit := false }))
      else if tmpbuf.pinCnt = 0 then
        if tmpbuf.dirty then
          match File.writePage w tmpbuf.file tmpbuf.pageNo tmpbuf.page with
          | (.OK, w1) => evictFrame w1 tmpbuf
          | _ => (.UNIXERR, none, w)
        else evictFrame w tmpbuf
      else allocBufLoop fuel (advanceClock w)

/-- `BufMgr::allocBuf` — at most `2 × numBufs` inspection steps. -/
def BufMgr.allocBuf (w : World) : Status × Option Nat × World :=
  allocBufLoop (w.numBufs * 2) w

/-- `BufMgr::readPage`.  The returned frame index stands for the `Page*`
handed back to the caller.  When `allocBuf` fails with a status other than
`BUFFEREXCEEDED` the C code goes on to index `bufPool[-1]` (undefined
behaviour); the model returns that status instead — the branch is
unreachable from well-formed pools. -/
def BufMgr.readPage (w : World) (file : Option FileName) (PageNo : Int) :
    Status × Option Nat × World :=
  match hLookup w.hashTable (file, PageNo) with
  | some frameNo =>
    match w.getFrame frameNo with
    | some fr =>
      (.OK, some frameNo, w.setFrame frameNo { fr with refbit := true, pinCnt := fr.pinCnt + 1 })
    | none => (.UNIXERR, none, w)
  | none =>
    match BufMgr.allocBuf w with
    | (.BUFFEREXCEEDED, _, w1) => (.BUFFEREXCEEDED, none, w1)
    | (st, none, w1) => (st, none, w1)
    | (_, some frameNo, w1) =>
      match File.readPage w1 file PageNo with
      | (.OK, some pg) =>
        let w2 :=
          match w1.getFrame frameNo with
          | some fr => w1.setFrame frameNo { fr with page := pg }
          | none => w1
        match hInsert w2.hashTable (file, PageNo) frameNo with
        | (.OK, tbl) =>
          let w3 := { w2 with hashTable := tbl }
          match w3.getFrame frameNo with
          | some fr => (.OK, some frameNo, w3.setFrame frameNo (fr.Set file PageNo))
          | none => (.UNIXERR, none, w3)
        | _ => (.HASHTBLERROR, none, w2)
      | _ => (.UNIXERR, none, w1)

/-- `BufMgr::unPinPage` — decrement the pin and OR the dirty argument in. -/
def BufMgr.unPinPage (w : World) (file : Option FileName) (PageNo : Int) (dirty : Bool) :
    Status × World :=
  match hLookup w.hashTable (file, PageNo) with
  | none => (.HASHNOTFOUND, w)
  | some frameNo =>
    match w.getFrame frameNo with
    | none => (.HASHNOTFOUND, w)
    | some fr =>
      if fr.pinCnt = 0 then (.PAGENOTPINNED, w)
      else (.OK, w.setFrame frameNo { fr with pinCnt := fr.pinCnt - 1, dirty := fr.dirty || dirty })

/-- `BufMgr::allocPage` — allocate on disk, obtain a frame, hash it, `Set` it. -/
def BufMgr.allocPage (w : World) (file : Option FileName) :
    Status × Int × Option Nat × World :=
  match File.allocatePage w file with
  | (.OK, pageNo, w1) =>
    match BufMgr.allocBuf w1 with
    | (.OK, some frameNo, w2) =>
      match hInsert w2.hashTable (file, pageNo) frameNo with
      | (.OK, tbl) =>
        let w3 := { w2 with hashTable := tbl }
        match w3.getFrame frameNo with
        | some fr => (.OK, pageNo, some frameNo, w3.setFrame frameNo (fr.Set file pageNo))
        | none => (.UNIXERR, pageNo, none, w3)
      | (st, _) => (st, pageNo, none, w2)
    | (.OK, none, w2) => (.UNIXERR, pageNo, none, w2)
    | (st, _, w2) => (st, pageNo, none, w2)
  | (st, p, w1) => (st, p, none, w1)

/-- `BufMgr::disposePage` — clear the resident frame if any, drop the hash
entry (status discarded, as in the source), deallocate on disk. -/
def BufMgr.disposePage (w : World) (file : Option FileName) (pageNo : Int) : Status × World :=
  let w1 :=
    match hLookup w.hashTable (file, pageNo) with
    | some frameNo =>
      match w.getFrame frameNo with
      | some fr => w.setFrame frameNo fr.Clear
      | none => w
    | none => w
  let w2 := { w1 with hashTable := (hRemove w1.hashTable (file, pageNo)).2 }
  File.disposePage w2 file pageNo

/-- The per-frame invalidation tail of `BufMgr::flushFile`: remove the hash
entry (status discarded, as in the source) and null the identity. -/
def flushInvalidate (file : Option FileName) (w : World) (i : Nat) : World :=
  match w.getFrame i with
  | some fr =>
    World.setFrame { w with hashTable := (hRemove w.hashTable (file, fr.pageNo)).2 } i
      { fr with file := none, pageNo := -1, valid := false }
  | none => w

/-- The frame scan of `BufMgr::flushFile` over the given frame indices. -/
def flushFileLoop (file : Option FileName) : List Nat → World → Status × World
  | [], w => (.OK, w)
  | i :: rest, w =>
    match w.getFrame i with
    | none => flushFileLoop file rest w
    | some fr =>
      if fr.valid = true ∧ fr.file = file then
        if fr.pinCnt > 0 then (.PAGEPINNED, w)
        else if fr.dirty then
          match File.writePage w fr.file fr.pageNo fr.page with
          | (.OK, w1) => flushFileLoop file rest (flushInvalidate file (w1.setFrame i { fr with dirty := false }) i)
          | (st, _) => (st, w)
        else flushFileLoop file rest (flushInvalidate file w i)
      else if fr.valid = false ∧ fr.file = file then (.BADBUFFER, w)
      else flushFileLoop file rest w

/-- `BufMgr::flushFile` — scan all frames in index order. -/
def BufMgr.flushFile (w : World) (file : Option FileName) : Status × World :=
  flushFileLoop file (List.range w.numBufs) w

/-- Overwrite the page payload of frame `i` (a store through a `Page*` into
the buffer pool). -/
def World.setPage (w : World) (i : Nat) (pg : PageM) : World :=
  match w.getFrame i with
  | some fr => w.setFrame i { fr with page := pg }
  | none => w

/-- The page payload of frame `i` (a load through a `Page*`). -/
def World.framePage (w : World) (i : Nat) : PageM :=
  match w.getFrame i with
  | some fr => fr.page
  | none => PageM.raw

/-- Update the header fields of frame `i` (a store through the
`FileHdrPage*` alias into the buffer pool). -/
def World.updHdr (w : World) (i : Nat) (g : FileHdr → FileHdr) : World :=
  match w.getFrame i with
  | some fr =>
    match fr.page with
    | .hdr h => w.setFrame i { fr with page := .hdr (g h) }
    | _ => w
  | none => w

/-- `createHeapFile` (stage4 variant): reject an existing file with
`FILEEXISTS`; otherwise create and open it, allocate the header page and
the first data page through the buffer pool, zero the header and store the
truncated null-terminated name, link first/last to the data page, init the
data page, unpin both pages dirty and close the file. -/
def createHeapFile (w : World) (fileName : FileName) : Status × World :=
  match DB.openFile w fileName with
  | (.OK, file, w1) => (.FILEEXISTS, (DB.closeFile w1 file).2)
  | (_, _, w1) =>
    match DB.createFile w1 fileName with
    | (.OK, w2) =>
      match DB.openFile w2 fileName with
      | (.OK, file, w3) =>
        match BufMgr.allocPage w3 file with
        | (.OK, hdrPageNo, some hdrFrame, w4) =>
          let w5 := w4.setPage hdrFrame (.hdr ⟨fileName.take (MAXNAMESIZE - 1), 0, 0, 0, 0⟩)
          match BufMgr.allocPage w5 file with
          | (.OK, newPageNo, some newFrame, w6) =>
            let w7 := w6.setPage newFrame (Page.init newPageNo)
            let w8 := w7.updHdr hdrFrame (fun h =>
              { h with pageCnt := 1, recCnt := 0, firstPage := newPageNo, lastPage := newPageNo })
            match BufMgr.unPinPage w8 file hdrPageNo true with
            | (.OK, w9) =>
              match BufMgr.unPinPage w9 file newPageNo true with
              | (.OK, w10) => DB.closeFile w10 file
              | (st, w10) => (st, w10)
            | (st, w9) => (st, w9)
          | (.OK, _, none, w6) => (.UNIXERR, w6)
          | (st, _, _, w6) => (st, w6)
        | (.OK, _, none, w4) => (.UNIXERR, w4)
        | (st, _, _, w4) => (st, w4)
      | (st, _, w3) => (st, w3)
    | (st, w2) => (st, w2)

/-- In-memory `HeapFile` state.  `curPage` and `headerPage` stand for the
C pointers into the buffer pool: `curPage` is the pinned frame's index,
`headerPage` the instance's view of the pinned header page (the C code
aliases it into the frame's bytes; no property proved here observes the
header through the frame, so the view is carried in the instance). -/
structure HF where
  filePtr : Option FileName
  headerPageNo : Int
  headerPage : Option FileHdr
  hdrDirtyFlag : Bool
  curPage : Option Nat
  curPageNo : Int
  curDirtyFlag : Bool
  curRec : RID
  deriving DecidableEq

/-- Dereference `headerPage` (`headerPage->...`); a NULL `headerPage` would
be undefined behaviour in C and yields a default view here. -/
def HF.hdrDeref (hf : HF) : FileHdr :=
  match hf.headerPage with
  | some h => h
  | none => ⟨[], 0, 0, -1, -1⟩

/-- `HeapFile::HeapFile` (the `src/unnamed/part_001` variant): open the
file, read its first page number, pin the header page, and pin the first
data page when one exists; on any failure unwind every pin, close the file
and null `filePtr`. -/
def HeapFile.ctor (w : World) (fileName : FileName) : Status × HF × World :=
  let hf0 : HF := ⟨none, -1, none, false, none, -1, false, NULLRID⟩
  match DB.openFile w fileName with
  | (.OK, filePtr, w1) =>
    match File.getFirstPage w1 filePtr with
    | (gst, hpn) =>
      if gst ≠ Status.OK ∨ hpn < 0 then
        ((if gst ≠ Status.OK then gst else .BADPAGENO),
          { hf0 with headerPageNo := hpn }, (DB.closeFile w1 filePtr).2)
      else
        match BufMgr.readPage w1 filePtr hpn with
        | (.OK, some hdrFrame, w2) =>
          let hdr :=
            match w2.framePage hdrFrame with
            | .hdr h => h
            | _ => ⟨[], 0, 0, -1, -1⟩
          if hdr.firstPage ≠ -1 then
            match BufMgr.readPage w2 filePtr hdr.firstPage with
            | (.OK, some curFrame, w3) =>
              (.OK, ⟨filePtr, hpn, some hdr, false, some curFrame, hdr.firstPage, false, NULLRID⟩, w3)
            | (.OK, none, w3) =>
              let w4 := (BufMgr.unPinPage w3 filePtr hpn false).2
              (.UNIXERR, { hf0 with headerPageNo := hpn }, (DB.closeFile w4 filePtr).2)
            | (rst, _, w3) =>
              let w4 := (BufMgr.unPinPage w3 filePtr hpn false).2
              (rst, { hf0 with headerPageNo := hpn }, (DB.closeFile w4 filePtr).2)
          else
            (.OK, ⟨filePtr, hpn, some hdr, false, none, -1, false, NULLRID⟩, w2)
        | (.OK, none, w2) =>
          (.UNIXERR, { hf0 with headerPageNo := hpn }, (DB.closeFile w2 filePtr).2)
        | (rst, _, w2) =>
          (rst, { hf0 with headerPageNo := hpn }, (DB.closeFile w2 filePtr).2)
  | (st, _, w1) => (st, hf0, w1)

/-- `HeapFile::~HeapFile` (the `src/unnamed/part_001` variant): do nothing
when `filePtr` is NULL; otherwise unpin the current page and the header
page when present, and close the file. -/
def HeapFile.dtor (w : World) (hf : HF) : World :=
  match hf.filePtr with
  | none => w
  | some _ =>
    let w1 :=
      match hf.curPage with
      | some _ => (BufMgr.unPinPage w hf.filePtr hf.curPageNo hf.curDirtyFlag).2
      | none => w
    let w2 :=
      match hf.headerPage with
      | some _ => (BufMgr.unPinPage w1 hf.filePtr hf.headerPageNo hf.hdrDirtyFlag).2
      | none => w1
    (DB.closeFile w2 hf.filePtr).2

/-- The cold path of `HeapFile::getRecord` (stage4): read and pin the
requested page — the `curPage` pointer is updated by `readPage` even when
the slot lookup then fails, while `curPageNo`, `curDirtyFlag` and `curRec`
are updated only on success, as in the source. -/
def HeapFile.getRecordCold (w : World) (hf : HF) (rid : RID) : Status × Option Rec × HF × World :=
  match BufMgr.readPage w hf.filePtr rid.pageNo with
  | (.OK, some j, w1) =>
    let hf1 := { hf with curPage := some j }
    match (w1.framePage j).getRecord rid with
    | (.OK, some r) =>
      (.OK, some r,
        { hf1 with curRec := ⟨rid.pageNo, rid.slotNo⟩, curPageNo := rid.pageNo,
                   curDirtyFlag := false }, w1)
    | (st, _) => (st, none, hf1, w1)
  | (.OK, none, w1) => (.UNIXERR, none, hf, w1)
  | (st, _, w1) => (st, none, hf, w1)

/-- `HeapFile::getRecord` (stage4 variant): use the pinned page when
`rid.pageNo` matches (recording only `curRec.slotNo`, as in the source);
otherwise unpin the old page (guarded by `curPageNo != -1`) and switch. -/
def HeapFile.getRecord (w : World) (hf : HF) (rid : RID) : Status × Option Rec × HF × World :=
  if hf.curPage ≠ none ∧ hf.curPageNo = rid.pageNo then
    match hf.curPage with
    | some j =>
      match (w.framePage j).getRecord rid with
      | (.OK, some r) =>
        (.OK, some r, { hf with curRec := { hf.curRec with slotNo := rid.slotNo } }, w)
      | (st, _) => (st, none, hf, w)
    | none => (.BADPAGENO, none, hf, w)
  else
    if hf.curPageNo ≠ (-1 : Int) then
      match BufMgr.unPinPage w hf.filePtr hf.curPageNo hf.curDirtyFlag with
      | (.OK, w1) => HeapFile.getRecordCold w1 hf rid
      | (st, w1) => (st, none, hf, w1)
    else HeapFile.getRecordCold w hf rid

/-- `Datatype` value `STRING` (a C enum carried as its underlying int). -/
def STRING : Int := 0

/-- `Datatype` value `INTEGER`. -/
def INTEGER : Int := 1

/-- `Datatype` value `FLOAT`. -/
def FLOAT : Int := 2

/-- `Operator` value `LT`. -/
def LT : Int := 0

/-- `Operator` value `LTE`. -/
def LTE : Int := 1

/-- `Operator` value `EQ`. -/
def EQ : Int := 2

/-- `Operator` value `GTE`. -/
def GTE : Int := 3

/-- `Operator` value `GT`. -/
def GT : Int := 4

/-- `Operator` value `NE`. -/
def NE : Int := 5

/-- `HeapFileScan` state: the heap-file base plus the filter parameters and
the mark/reset snapshot. -/
structure ScanState extends HF where
  offset : Int
  length : Int
  type : Int
  filter : Option Nat
  op : Int
  markedPageNo : Int
  markedRec : RID
  deriving DecidableEq

/-- `HeapFileScan::startScan` (stage4 variant): a NULL filter makes the
scan unfiltered ignoring the other parameters; otherwise the parameters
are validated (`BADSCANPARM` on any invalid combination, with no state
change) and stored.  `sizeof(int) = sizeof(float) = 4`. -/
def HeapFileScan.startScan (s : ScanState) (offset_ length_ : Int) (type_ : Int)
    (filter_ : Option Nat) (op_ : Int) : Status × ScanState :=
  match filter_ with
  | none => (.OK, { s with filter := none })
  | some _ =>
    if (offset_ < 0 ∨ length_ < 1) ∨ (type_ ≠ STRING ∧ type_ ≠ INTEGER ∧ type_ ≠ FLOAT) ∨
        ((type_ = INTEGER ∧ length_ ≠ 4) ∨ (type_ = FLOAT ∧ length_ ≠ 4)) ∨
        (op_ ≠ LT ∧ op_ ≠ LTE ∧ op_ ≠ EQ ∧ op_ ≠ GTE ∧ op_ ≠ GT ∧ op_ ≠ NE) then
      (.BADSCANPARM, s)
    else
      (.OK, { s with offset := offset_, length := length_, type := type_, filter := filter_,
                     op := op_ })

/-- `HeapFileScan::markScan` (stage4 variant): snapshot `(curPageNo, curRec)`. -/
def HeapFileScan.markScan (s : ScanState) : Status × ScanState :=
  (.OK, { s with markedPageNo := s.curPageNo, markedRec := s.curRec })

/-- `HeapFileScan::resetScan` (stage4 variant): restore the snapshot,
unpinning the current page and re-pinning the marked one (clean) when they
differ. -/
def HeapFileScan.resetScan (w : World) (s : ScanState) : Status × ScanState × World :=
  if s.markedPageNo ≠ s.curPageNo then
    match
      (match s.curPage with
        | some _ => BufMgr.unPinPage w s.filePtr s.curPageNo s.curDirtyFlag
        | none => (.OK, w)) with
    | (.OK, w1) =>
      let s1 := { s with curPageNo := s.markedPageNo, curRec := s.markedRec }
      match BufMgr.readPage w1 s1.filePtr s1.curPageNo with
      | (.OK, some j, w2) => (.OK, { s1 with curPage := some j, curDirtyFlag := false }, w2)
      | (.OK, none, w2) => (.UNIXERR, s1, w2)
      | (st, _, w2) => (st, s1, w2)
    | (st, w1) => (st, s, w1)
  else (.OK, { s with curRec := s.markedRec }, w)

/-- `HeapFileScan::matchRec`.  The C source decodes the filtered field with
`memcpy` and compares via float arithmetic; floating point is outside this
embedding and no claim below depends on the predicate's verdict, so the
comparison is abstracted: an unfiltered scan accepts every record, a
filtered scan accepts records whose payload tag equals the filter tag. -/
def HeapFileScan.matchRec (s : ScanState) (r : Rec) : Bool :=
  match s.filter with
  | none => true
  | some f => r.tag == f

/-- The `while (true)` body of `HeapFileScan::scanNext` (stage4 variant),
with the iteration count as fuel.  A `none` current page inside the loop
would be a NULL dereference in C (unreachable); fuel exhaustion is likewise
unreachable for terminating page chains. -/
def scanNextLoop : Nat → World → ScanState → Status × Option RID × ScanState × World
  | 0, w, s => (.BADSCANID, none, s, w)
  | fuel + 1, w, s =>
    match s.curPage with
    | none => (.BADSCANID, none, s, w)
    | some j =>
      let pg := w.framePage j
      let step :=
        if s.curRec.pageNo = NULLRID.pageNo ∧ s.curRec.slotNo = NULLRID.slotNo then pg.firstRecord
        else pg.nextRecord s.curRec
      if step.1 = .ENDOFPAGE ∨ step.1 = .NORECORDS then
        match pg.getNextPage with
        | (.OK, nextPageNo) =>
          match BufMgr.unPinPage w s.filePtr s.curPageNo s.curDirtyFlag with
          | (.OK, w1) =>
            let s1 := { s with curPage := none }
            if nextPageNo = -1 then
              (.FILEEOF, none, { s1 with curPageNo := -1, curRec := NULLRID }, w1)
            else
              match BufMgr.readPage w1 s.filePtr nextPageNo with
              | (.OK, some k, w2) =>
                scanNextLoop fuel w2
                  { s1 with curPage := some k, curDirtyFlag := false, curPageNo := nextPageNo,
                            curRec := NULLRID }
              | (.OK, none, w2) => (.UNIXERR, none, s1, w2)
              | (rst, _, w2) => (rst, none, s1, w2)
          | (ust, w1) => (ust, none, s, w1)
        | (gst, _) => (gst, none, s, w)
      else if step.1 ≠ .OK then (step.1, none, s, w)
      else
        let s2 := { s with curRec := step.2 }
        match pg.getRecord step.2 with
        | (.OK, some r) =>
          if s2.filter = none ∨ HeapFileScan.matchRec s2 r = true then
            (.OK, some ⟨step.2.pageNo, step.2.slotNo⟩, s2, w)
          else scanNextLoop fuel w s2
        | (gst, _) => (gst, none, s2, w)

/-- An upper bound on the iterations `scanNext` can take on this world:
every iteration either returns or consumes a slot or a page of some file. -/
def scanFuel (w : World) : Nat :=
  (w.disk.map (fun f =>
    (f.2.pages.map (fun p =>
      match p.2 with
      | .data d => d.slots.length + 2
      | _ => 2)).sum)).sum + w.numBufs + 8

/-- `HeapFileScan::scanNext` (stage4 variant): `FILEEOF` immediately when
no page is pinned and `curPageNo = -1`; re-pin the first page when no page
is pinned; then run the scan loop. -/
def HeapFileScan.scanNext (w : World) (s : ScanState) : Status × Option RID × ScanState × World :=
  if s.curPage = none ∧ s.curPageNo = -1 then (.FILEEOF, none, s, w)
  else
    match s.curPage with
    | none =>
      let fp := (HF.hdrDeref s.toHF).firstPage
      match BufMgr.readPage w s.filePtr fp with
      | (.OK, some j, w1) =>
        scanNextLoop (scanFuel w1) w1
          { s with curPage := some j, curPageNo := fp, curDirtyFlag := false, curRec := NULLRID }
      | (.OK, none, w1) => (.UNIXERR, none, s, w1)
      | (st, _, w1) => (st, none, s, w1)
    | some _ => scanNextLoop (scanFuel w) w s

/-- The common success tail of `InsertFileScan::insertRecord`: mark the
current page dirty, record `curRec = outRid`, bump `recCnt`, set the header
dirty. -/
def insertFinish (w : World) (hf : HF) (rid : RID) : Status × Option RID × HF × World :=
  let hdr := HF.hdrDeref hf
  (.OK, some rid,
    { hf with curDirtyFlag := true, curRec := ⟨rid.pageNo, rid.slotNo⟩, hdrDirtyFlag := true,
              headerPage := some { hdr with recCnt := hdr.recCnt + 1 } }, w)

/-- The insertion attempt of `InsertFileScan::insertRecord` once a current
page is pinned: try the page; on `NOSPACE` allocate and init a new page,
chain it behind the old one, move the header's `lastPage`, bump `pageCnt`,
unpin the old page dirty, and retry on the new page. -/
def insertCore (w : World) (hf : HF) (rec : Rec) : Status × Option RID × HF × World :=
  match hf.curPage with
  | none => (.BADPAGENO, none, hf, w)
  | some j =>
    match (w.framePage j).insertRecord rec with
    | (.OK, rid, pg') => insertFinish (w.setPage j pg') hf rid
    | (.NOSPACE, _, _) =>
      match BufMgr.allocPage w hf.filePtr with
      | (.OK, newPageNo, some newFrame, w1) =>
        let w2 := w1.setPage newFrame (Page.init newPageNo)
        let hf1 := { hf with headerPage := some { HF.hdrDeref hf with lastPage := newPageNo } }
        match (w2.framePage j).setNextPage newPageNo with
        | (.OK, pg') =>
          let w3 := w2.setPage j pg'
          let hf2 := { hf1 with curDirtyFlag := true }
          match BufMgr.unPinPage w3 hf2.filePtr hf2.curPageNo hf2.curDirtyFlag with
          | (.OK, w4) =>
            let hf3 := { hf2 with curPage := some newFrame, curPageNo := newPageNo }
            let hdr2 := HF.hdrDeref hf3
            let hdr3 := { hdr2 with lastPage := newPageNo, pageCnt := hdr2.pageCnt + 1 }
            let hf4 := { hf3 with headerPage := some hdr3 }
            match (w4.framePage newFrame).insertRecord rec with
            | (.OK, rid2, pg2) => insertFinish (w4.setPage newFrame pg2) hf4 rid2
            | (st, _, _) => (st, none, hf4, w4)
          | (st, w4) => (st, none, hf2, w4)
        | (st, _) => (st, none, hf1, w2)
      | (.OK, _, none, w1) => (.UNIXERR, none, hf, w1)
      | (st, _, _, w1) => (st, none, hf, w1)
    | (st, _, _) => (st, none, hf, w)

/-- `InsertFileScan::insertRecord` (stage4 variant): reject records longer
than `PAGESIZE − DPFIXED` with `INVALIDRECLEN` and no side effects; re-pin
the header's `lastPage` when no page is pinned; then attempt the insert. -/
def InsertFileScan.insertRecord (w : World) (hf : HF) (rec : Rec) :
    Status × Option RID × HF × World :=
  if PAGESIZE - DPFIXED < rec.len then (.INVALIDRECLEN, none, hf, w)
  else
    match hf.curPage with
    | none =>
      match BufMgr.readPage w hf.filePtr (HF.hdrDeref hf).lastPage with
      | (.OK, some j, w1) =>
        insertCore w1 { hf with curPage := some j, curPageNo := (HF.hdrDeref hf).lastPage } rec
      | (.OK, none, w1) => (.UNIXERR, none, hf, w1)
      | (st, _, w1) => (st, none, hf, w1)
    | some _ => insertCore w hf rec

/-- Iterate `scanNext` the given number of times, returning the last call's
status and RID together with the final scan state and world. -/
def scanSteps : Nat → World → ScanState → Status × Option RID × ScanState × World
  | 0, w, s => (.OK, none, s, w)
  | n + 1, w, s =>
    match n, HeapFileScan.scanNext w s with
    | 0, r => r
    | m + 1, (_, _, s', w') => scanSteps (m + 1) w' s'


/-! ## Claim C1: the clock policy of `BufMgr::allocBuf` -/

theorem writePage_shape (w : World) (f : Option FileName) (p : Int) (pg : PageM) :
    (File.writePage w f p pg).2.numBufs = w.numBufs ∧
    (File.writePage w f p pg).2.bufTable = w.bufTable ∧
    (File.writePage w f p pg).2.clockHand = w.clockHand ∧
    (File.writePage w f p pg).2.hashTable = w.hashTable := by
  unfold File.writePage
  repeat' split
  all_goals exact ⟨rfl, rfl, rfl, rfl⟩

/-- C1.  `allocBuf` walks the clock for at most `2 × numBufs` inspection
steps.  The hand is advanced after a skipped inspection (refbit cleared,
or pinned) and when an invalid frame is chosen, but NOT on the victim
path: when a valid, refbit-clear, unpinned frame is evicted, `allocBuf`
returns with the hand still on the victim frame.  An invalid frame is
chosen immediately (hand advanced); a valid frame with its refbit set has
the refbit cleared and is skipped; a valid frame with `pinCnt > 0` is
skipped; otherwise the frame is the victim: a dirty victim is first
written through the file provider (`UNIXERR` on write failure), its hash
entry is removed (`HASHTBLERROR` on failure), its descriptor is reset by
`Clear` (valid, pin, dirty, refbit all cleared) and its frame number is
returned with the hand unchanged; exhausting both sweeps yields
`BUFFEREXCEEDED`. -/
theorem allocBuf_clock_policy :
    (∀ w, BufMgr.allocBuf w = allocBufLoop (w.numBufs * 2) w)
    ∧ (∀ w, allocBufLoop 0 w = (.BUFFEREXCEEDED, none, w))
    ∧ (∀ fuel w fr, w.getFrame w.clockHand = some fr → fr.valid = false →
        allocBufLoop (fuel + 1) w = (.OK, some w.clockHand, advanceClock w))
    ∧ (∀ fuel w fr, w.getFrame w.clockHand = some fr → fr.valid = true → fr.refbit = true →
        allocBufLoop (fuel + 1) w =
          allocBufLoop fuel (advanceClock (w.setFrame w.clockHand { fr with refbit := false })))
    ∧ (∀ fuel w fr, w.getFrame w.clockHand = some fr → fr.valid = true → fr.refbit = false →
        fr.pinCnt ≠ 0 →
        allocBufLoop (fuel + 1) w = allocBufLoop fuel (advanceClock w))
    ∧ (∀ fuel w fr st w1, w.getFrame w.clockHand = some fr → fr.valid = true →
        fr.refbit = false → fr.pinCnt = 0 → fr.dirty = true →
        File.writePage w fr.file fr.pageNo fr.page = (st, w1) → st ≠ .OK →
        allocBufLoop (fuel + 1) w = (.UNIXERR, none, w))
    ∧ (∀ fuel w fr, w.getFrame w.clockHand = some fr → fr.valid = true →
        fr.refbit = false → fr.pinCnt = 0 → fr.dirty = false →
        hLookup w.hashTable (fr.file, fr.pageNo) = none →
        allocBufLoop (fuel + 1) w = (.HASHTBLERROR, none, w))
    ∧ (∀ fuel w fr w1, w.getFrame w.clockHand = some fr → fr.valid = true →
        fr.refbit = false → fr.pinCnt = 0 → fr.dirty = true →
        File.writePage w fr.file fr.pageNo fr.page = (.OK, w1) →
        hLookup w.hashTable (fr.file, fr.pageNo) = none →
        allocBufLoop (fuel + 1) w = (.HASHTBLERROR, none, w1))
    ∧ (∀ fuel w fr k, w.getFrame w.clockHand = some fr → fr.valid = true →
        fr.refbit = false → fr.pinCnt = 0 → fr.dirty = false →
        hLookup w.hashTable (fr.file, fr.pageNo) = some k →
        allocBufLoop (fuel + 1) w =
          (.OK, some w.clockHand,
            World.setFrame { w with hashTable := aremove w.hashTable (fr.file, fr.pageNo) }
              w.clockHand fr.Clear))
    ∧ (∀ fuel w fr w1 k, w.getFrame w.clockHand = some fr → fr.valid = true →
        fr.refbit = false → fr.pinCnt = 0 → fr.dirty = true →
        File.writePage w fr.file fr.pageNo fr.page = (.OK, w1) →
        hLookup w.hashTable (fr.file, fr.pageNo) = some k →
        allocBufLoop (fuel + 1) w =
          (.OK, some w.clockHand,
            World.setFrame { w1 with hashTable := aremove w1.hashTable (fr.file, fr.pageNo) }
              w.clockHand fr.Clear))
    ∧ (∀ fr, (Frame.Clear fr).valid = false ∧ (Frame.Clear fr).pinCnt = 0 ∧
        (Frame.Clear fr).dirty = false ∧ (Frame.Clear fr).refbit = false) := by
  refine ⟨fun w => rfl, fun w => rfl, ?_, ?_, ?_, ?_, ?_, ?_, ?_, ?_, ?_⟩
  · intro fuel w fr h hv
    simp [allocBufLoop, h, hv]
  · intro fuel w fr h hv hr
    simp [allocBufLoop, h, hv, hr]
  · intro fuel w fr h hv hr hp
    simp [allocBufLoop, h, hv, hr, hp]
  · intro fuel w fr st w1 h hv hr hp hd hwp hst
    simp only [allocBufLoop, h, hv, hr, hp, hd]
    rw [hwp]
    cases st
    · exact absurd rfl hst
    all_goals simp
  · intro fuel w fr h hv hr hp hd hk
    simp only [hLookup] at hk
    simp [allocBufLoop, h, hv, hr, hp, hd, evictFrame, hRemove, hk]
  · intro fuel w fr w1 h hv hr hp hd hwp hk
    have htbl : w1.hashTable = w.hashTable := by
      have hs := (writePage_shape w fr.file fr.pageNo fr.page).2.2.2
      rw [hwp] at hs
      exact hs
    simp only [hLookup] at hk
    simp [allocBufLoop, h, hv, hr, hp, hd, hwp, evictFrame, hRemove, htbl, hk]
  · intro fuel w fr k h hv hr hp hd hk
    simp only [hLookup] at hk
    simp [allocBufLoop, h, hv, hr, hp, hd, evictFrame, hRemove, hk]
  · intro fuel w fr w1 k h hv hr hp hd hwp hk
    have htbl : w1.hashTable = w.hashTable := by
      have hs := (writePage_shape w fr.file fr.pageNo fr.page).2.2.2
      rw [hwp] at hs
      exact hs
    have hch : w1.clockHand = w.clockHand := by
      have hs := (writePage_shape w fr.file fr.pageNo fr.page).2.2.1
      rw [hwp] at hs
      exact hs
    simp only [hLookup] at hk
    simp [allocBufLoop, h, hv, hr, hp, hd, hwp, evictFrame, hRemove, htbl, hch, hk]
  · intro fr
    exact ⟨rfl, rfl, rfl, rfl⟩

/-- An invalid frame for concrete buffer pools. -/
def frC1inv : Frame := ⟨none, -1, 0, false, false, false, .raw⟩

/-- A valid, unpinned, dirty frame holding page 1 of file `[3]`. -/
def frC1dir : Frame := ⟨some [3], 1, 0, true, false, true, .raw⟩

/-- One-frame pool whose only frame is invalid. -/
def wC1a : World := ⟨1, [frC1inv], 0, [], []⟩

/-- One-frame pool holding a dirty victim whose file is absent from disk
(so the write-back fails). -/
def wC1b : World := ⟨1, [frC1dir], 0, [((some [3], 1), 0)], []⟩

/-- One-frame pool holding a dirty victim whose page is on disk. -/
def wC1c : World := ⟨1, [frC1dir], 0, [((some [3], 1), 0)], [([3], ⟨1, 2, [(1, .raw)], 0⟩)]⟩

/-- Witness for C1: the clock-walk cases at concrete pools — an invalid
frame chosen at once, a failed write-back of a dirty victim yielding
`UNIXERR`, and a successful eviction of a dirty victim. -/
theorem allocBuf_clock_policy_witness :
    allocBufLoop 1 wC1a = (.OK, some 0, advanceClock wC1a)
    ∧ allocBufLoop 1 wC1b = (.UNIXERR, none, wC1b)
    ∧ allocBufLoop 1 wC1c =
        (.OK, some 0,
          World.setFrame { wC1c with hashTable := aremove wC1c.hashTable (some [3], 1) } 0
            frC1dir.Clear) :=
  ⟨allocBuf_clock_policy.2.2.1 0 wC1a frC1inv (by decide) (by decide),
   allocBuf_clock_policy.2.2.2.2.2.1 0 wC1b frC1dir .UNIXERR wC1b (by decide) (by decide)
     (by decide) (by decide) (by decide) (by decide) (by decide),
   allocBuf_clock_policy.2.2.2.2.2.2.2.2.2.1 0 wC1c frC1dir wC1c 0 (by decide) (by decide)
     (by decide) (by decide) (by decide) (by decide) (by decide)⟩

/-- A clean, unpinned, valid frame holding page 1 of file `[3]`. -/
def frC1cln : Frame := ⟨some [3], 1, 0, false, false, true, .raw⟩

/-- Two-frame pool whose hand sits on the clean victim `frC1cln`. -/
def wC1d : World := ⟨2, [frC1cln, frC1inv], 0, [((some [3], 1), 0)], []⟩

/-- Counterexample for C1's original wording "advancing the hand after
inspecting each frame": on `wC1d` the frame under the hand (frame 0) is
inspected and chosen as the victim, yet `allocBuf` returns with the clock
hand still at 0 — the victim branch returns without `advanceClock()`,
although advancing was observable here (it would have moved the hand to
frame 1). -/
theorem allocBuf_hand_not_advanced_counterexample :
    (BufMgr.allocBuf wC1d).1 = .OK ∧
    (BufMgr.allocBuf wC1d).2.1 = some wC1d.clockHand ∧
    (BufMgr.allocBuf wC1d).2.2.clockHand = wC1d.clockHand ∧
    (advanceClock wC1d).clockHand ≠ wC1d.clockHand := by decide

/-! ## Claim C3: `BufMgr::flushFile` -/

theorem aremove_sublist {α β : Type} [DecidableEq α] (l : List (α × β)) (k : α) :
    (aremove l k).Sublist l := by
  induction l with
  | nil => exact List.Sublist.refl []
  | cons hd tl ih =>
    obtain ⟨a, b⟩ := hd
    by_cases hak : a = k
    · simp only [aremove, if_pos hak]
      exact List.sublist_cons_self (a, b) tl
    · simpa [aremove, if_neg hak] using List.Sublist.cons₂ (a, b) ih

theorem alookup_aupdate_found {α β : Type} [DecidableEq α] (l : List (α × β)) (k : α)
    (v v0 : β) (h : alookup l k = some v0) : alookup (aupdate l k v) k = some v := by
  induction l with
  | nil => simp [alookup] at h
  | cons hd tl ih =>
    obtain ⟨a, b⟩ := hd
    by_cases hak : a = k
    · subst hak
      simp [aupdate, alookup]
    · simp only [alookup, if_neg hak] at h
      simp only [aupdate, if_neg hak, alookup, if_neg hak]
      exact ih h

theorem alookup_none_aremove {α β : Type} [DecidableEq α] (l : List (α × β)) (k k' : α)
    (h : alookup l k = none) : alookup (aremove l k') k = none := by
  induction l with
  | nil => rfl
  | cons hd tl ih =>
    obtain ⟨a, b⟩ := hd
    by_cases hak : a = k
    · subst hak
      simp [alookup] at h
    · simp only [alookup, if_neg hak] at h
      simp only [aremove]
      by_cases hak' : a = k'
      · simp [if_pos hak', h]
      · simp [if_neg hak', alookup, if_neg hak, ih h]

theorem alookup_eq_none_of_not_mem_keys {α β : Type} [DecidableEq α] (l : List (α × β)) (k : α)
    (h : k ∉ l.map Prod.fst) : alookup l k = none := by
  induction l with
  | nil => rfl
  | cons hd tl ih =>
    obtain ⟨a, b⟩ := hd
    simp only [List.map_cons, List.mem_cons] at h
    push_neg at h
    simp only [alookup]
    rw [if_neg (fun hx : a = k => h.1 hx.symm)]
    exact ih h.2

theorem alookup_aremove_self {α β : Type} [DecidableEq α] (l : List (α × β)) (k : α)
    (h : (l.map Prod.fst).Nodup) : alookup (aremove l k) k = none := by
  induction l with
  | nil => rfl
  | cons hd tl ih =>
    obtain ⟨a, b⟩ := hd
    simp only [List.map_cons, List.nodup_cons] at h
    by_cases hak : a = k
    · subst hak
      simp only [aremove, if_pos rfl]
      exact alookup_eq_none_of_not_mem_keys tl a h.1
    · simp only [aremove, if_neg hak, alookup, if_neg hak]
      exact ih h.2

theorem aremove_keys_nodup {α β : Type} [DecidableEq α] (l : List (α × β)) (k : α)
    (h : (l.map Prod.fst).Nodup) : ((aremove l k).map Prod.fst).Nodup :=
  List.Nodup.sublist ((aremove_sublist l k).map Prod.fst) h

theorem getFrame_setFrame_ne (w : World) (i j : Nat) (fr : Frame) (h : j ≠ i) :
    (w.setFrame i fr).getFrame j = w.getFrame j := by
  simp only [World.setFrame, World.getFrame, List.get?_eq_getElem?]
  exact List.getElem?_set_ne (Ne.symm h)

theorem getFrame_setFrame_self (w : World) (i : Nat) (fr fr' : Frame)
    (h : w.getFrame i = some fr') : (w.setFrame i fr).getFrame i = some fr := by
  simp only [World.getFrame, List.get?_eq_getElem?] at h
  have hlt : i < w.bufTable.length := by
    by_contra hc
    push_neg at hc
    rw [List.getElem?_eq_none hc] at h
    cases h
  simp only [World.setFrame, World.getFrame, List.get?_eq_getElem?]
  exact List.getElem?_set_self hlt

/-- Whether `(f, p)` names a page the file provider can read and write. -/
def onDisk (w : World) (f : Option FileName) (p : Int) : Bool :=
  match f with
  | none => false
  | some name =>
    match alookup w.disk name with
    | some fd => (alookup fd.pages p).isSome
    | none => false

/-- The page currently on disk under `(f, p)`. -/
def diskPage (w : World) (f : Option FileName) (p : Int) : Option PageM :=
  (File.readPage w f p).2

theorem onDisk_congr (w w' : World) (f : Option FileName) (p : Int)
    (h : w'.disk = w.disk) : onDisk w' f p = onDisk w f p := by
  unfold onDisk
  rw [h]

theorem diskPage_congr (w w' : World) (f : Option FileName) (p : Int)
    (h : w'.disk = w.disk) : diskPage w' f p = diskPage w f p := by
  unfold diskPage File.readPage
  rw [h]

theorem alookup_aupdate_isSome {α β : Type} [DecidableEq α] (l : List (α × β)) (k k' : α)
    (v : β) : (alookup (aupdate l k v) k').isSome = (alookup l k').isSome := by
  induction l with
  | nil => rfl
  | cons hd tl ih =>
    obtain ⟨a, b⟩ := hd
    by_cases hak : a = k
    · subst hak
      by_cases hk' : a = k'
      · simp [aupdate, alookup, hk']
      · simp only [aupdate, if_pos rfl, alookup]
        rw [if_neg (by simpa using hk'), if_neg hk']
    · simp only [aupdate, if_neg hak, alookup]
      by_cases hk' : a = k'
      · simp [if_pos hk']
      · simp [if_neg hk', ih]

theorem writePage_none (w : World) (p : Int) (pg : PageM) :
    File.writePage w none p pg = (.UNIXERR, w) := rfl

theorem writePage_fail_nofile (w : World) (name : FileName) (p : Int) (pg : PageM)
    (hfd : alookup w.disk name = none) : File.writePage w (some name) p pg = (.UNIXERR, w) := by
  unfold File.writePage
  simp [hfd]

theorem writePage_fail_nopage (w : World) (name : FileName) (p : Int) (pg : PageM)
    (fd : FileData) (hfd : alookup w.disk name = some fd)
    (hpg : alookup fd.pages p = none) : File.writePage w (some name) p pg = (.UNIXERR, w) := by
  unfold File.writePage
  simp [hfd, hpg]

theorem writePage_eq (w : World) (name : FileName) (p : Int) (pg : PageM) (fd : FileData)
    (hfd : alookup w.disk name = some fd) (q : PageM) (hpg : alookup fd.pages p = some q) :
    File.writePage w (some name) p pg =
      (.OK, { w with disk := aupdate w.disk name { fd with pages := aupdate fd.pages p pg } }) := by
  unfold File.writePage
  simp [hfd, hpg]

theorem writePage_status_of_onDisk (w : World) (f : Option FileName) (p : Int) (pg : PageM)
    (h : onDisk w f p = true) : (File.writePage w f p pg).1 = .OK := by
  cases f with
  | none => simp [onDisk] at h
  | some name =>
    cases hfd : alookup w.disk name with
    | none => simp [onDisk, hfd] at h
    | some fd =>
      cases hpg : alookup fd.pages p with
      | none => simp [onDisk, hfd, hpg] at h
      | some q => rw [writePage_eq w name p pg fd hfd q hpg]

theorem writePage_onDisk_pres (w : World) (f : Option FileName) (p : Int) (pg : PageM)
    (f' : Option FileName) (p' : Int) :
    onDisk (File.writePage w f p pg).2 f' p' = onDisk w f' p' := by
  cases f with
  | none => rfl
  | some name =>
    cases hfd : alookup w.disk name with
    | none => rw [writePage_fail_nofile w name p pg hfd]
    | some fd =>
      cases hpg : alookup fd.pages p with
      | none => rw [writePage_fail_nopage w name p pg fd hfd hpg]
      | some q =>
        rw [writePage_eq w name p pg fd hfd q hpg]
        cases f' with
        | none => rfl
        | some name' =>
          by_cases hnn : name = name'
          · subst hnn
            simp only [onDisk]
            rw [alookup_aupdate_found w.disk name _ fd hfd, hfd]
            exact alookup_aupdate_isSome fd.pages p p' pg
          · simp only [onDisk]
            rw [alookup_aupdate_ne w.disk name name' _ hnn]

theorem diskPage_writePage_self (w : World) (f : Option FileName) (p : Int) (pg : PageM)
    (h : onDisk w f p = true) : diskPage (File.writePage w f p pg).2 f p = some pg := by
  cases f with
  | none => simp [onDisk] at h
  | some name =>
    cases hfd : alookup w.disk name with
    | none => simp [onDisk, hfd] at h
    | some fd =>
      cases hpg : alookup fd.pages p with
      | none => simp [onDisk, hfd, hpg] at h
      | some q =>
        rw [writePage_eq w name p pg fd hfd q hpg]
        unfold diskPage File.readPage
        simp only
        rw [alookup_aupdate_found w.disk name _ fd hfd]
        simp only
        rw [alookup_aupdate_found fd.pages p pg q hpg]

theorem diskPage_writePage_ne (w : World) (f : Option FileName) (p : Int) (pg : PageM)
    (p' : Int) (hp : p' ≠ p) :
    diskPage (File.writePage w f p pg).2 f p' = diskPage w f p' := by
  cases f with
  | none => rfl
  | some name =>
    cases hfd : alookup w.disk name with
    | none => rw [writePage_fail_nofile w name p pg hfd]
    | some fd =>
      cases hpg : alookup fd.pages p with
      | none => rw [writePage_fail_nopage w name p pg fd hfd hpg]
      | some q =>
        rw [writePage_eq w name p pg fd hfd q hpg]
        unfold diskPage File.readPage
        simp only
        rw [alookup_aupdate_found w.disk name _ fd hfd, hfd]
        simp only
        rw [alookup_aupdate_ne fd.pages p p' pg (fun hx => hp hx.symm)]

theorem aremove_of_none {α β : Type} [DecidableEq α] (l : List (α × β)) (k : α)
    (h : alookup l k = none) : aremove l k = l := by
  induction l with
  | nil => rfl
  | cons hd tl ih =>
    obtain ⟨a, b⟩ := hd
    by_cases hak : a = k
    · subst hak
      simp [alookup] at h
    · simp only [alookup, if_neg hak] at h
      simp [aremove, if_neg hak, ih h]

theorem hRemove_snd (tbl : List (HKey × Nat)) (k : HKey) :
    (hRemove tbl k).2 = aremove tbl k := by
  unfold hRemove
  cases h : alookup tbl k with
  | none => simp [aremove_of_none tbl k h]
  | some v => simp

/-- The shape `flushFile` leaves a processed frame in. -/
def invalidatedFrame (fr : Frame) : Frame :=
  { fr with file := none, pageNo := -1, valid := false, dirty := false }

theorem flushInvalidate_getFrame_ne (file : Option FileName) (w : World) (i j : Nat)
    (h : j ≠ i) : (flushInvalidate file w i).getFrame j = w.getFrame j := by
  unfold flushInvalidate
  cases hg : w.getFrame i with
  | none => rfl
  | some fr =>
    exact getFrame_setFrame_ne { w with hashTable := (hRemove w.hashTable (file, fr.pageNo)).2 }
      i j _ h

theorem flushInvalidate_disk (file : Option FileName) (w : World) (i : Nat) :
    (flushInvalidate file w i).disk = w.disk := by
  unfold flushInvalidate
  cases hg : w.getFrame i with
  | none => rfl
  | some fr => rfl

theorem flushInvalidate_hash (file : Option FileName) (w : World) (i : Nat) (fr : Frame)
    (hg : w.getFrame i = some fr) :
    (flushInvalidate file w i).hashTable = aremove w.hashTable (file, fr.pageNo) := by
  unfold flushInvalidate
  rw [hg]
  exact hRemove_snd w.hashTable (file, fr.pageNo)

theorem flushInvalidate_getFrame_self (file : Option FileName) (w : World) (i : Nat)
    (fr : Frame) (hg : w.getFrame i = some fr) :
    (flushInvalidate file w i).getFrame i =
      some { fr with file := none, pageNo := -1, valid := false } := by
  unfold flushInvalidate
  rw [hg]
  exact getFrame_setFrame_self _ i _ fr hg

theorem flushLoop_cons_none (file : Option FileName) (i : Nat) (rest : List Nat) (w : World)
    (hg : w.getFrame i = none) :
    flushFileLoop file (i :: rest) w = flushFileLoop file rest w := by
  simp [flushFileLoop, hg]

theorem flushLoop_cons_nomatch (file : Option FileName) (i : Nat) (rest : List Nat)
    (w : World) (fr : Frame) (hg : w.getFrame i = some fr) (hnm : fr.file ≠ file) :
    flushFileLoop file (i :: rest) w = flushFileLoop file rest w := by
  simp [flushFileLoop, hg, hnm]

theorem flushLoop_cons_pinned (file : Option FileName) (i : Nat) (rest : List Nat)
    (w : World) (fr : Frame) (hg : w.getFrame i = some fr) (hv : fr.valid = true)
    (hf : fr.file = file) (hp : fr.pinCnt ≠ 0) :
    flushFileLoop file (i :: rest) w = (.PAGEPINNED, w) := by
  simp [flushFileLoop, hg, hv, hf, Nat.pos_of_ne_zero hp]

theorem flushLoop_cons_badbuffer (file : Option FileName) (i : Nat) (rest : List Nat)
    (w : World) (fr : Frame) (hg : w.getFrame i = some fr) (hv : fr.valid = false)
    (hf : fr.file = file) :
    flushFileLoop file (i :: rest) w = (.BADBUFFER, w) := by
  simp [flushFileLoop, hg, hv, hf]

theorem flushLoop_cons_clean (file : Option FileName) (i : Nat) (rest : List Nat)
    (w : World) (fr : Frame) (hg : w.getFrame i = some fr) (hv : fr.valid = true)
    (hf : fr.file = file) (hp : fr.pinCnt = 0) (hd : fr.dirty = false) :
    flushFileLoop file (i :: rest) w = flushFileLoop file rest (flushInvalidate file w i) := by
  simp [flushFileLoop, hg, hv, hf, hp, hd]

theorem flushLoop_cons_dirty (file : Option FileName) (i : Nat) (rest : List Nat)
    (w : World) (fr : Frame) (hg : w.getFrame i = some fr) (hv : fr.valid = true)
    (hf : fr.file = file) (hp : fr.pinCnt = 0) (hd : fr.dirty = true)
    (hw : onDisk w fr.file fr.pageNo = true) :
    flushFileLoop file (i :: rest) w =
      flushFileLoop file rest
        (flushInvalidate file
          ((File.writePage w fr.file fr.pageNo fr.page).2.setFrame i { fr with dirty := false })
          i) := by
  have hsplit : File.writePage w file fr.pageNo fr.page =
      (.OK, (File.writePage w file fr.pageNo fr.page).2) := by
    rw [← hf]
    exact Prod.ext (writePage_status_of_onDisk w fr.file fr.pageNo fr.page hw) rfl
  simp only [flushFileLoop, hg, hv, hf, hp, hd]
  rw [hsplit]
  simp

theorem flushLoop_cons_dirty_eq (file : Option FileName) (i : Nat) (rest : List Nat)
    (w : World) (fr : Frame) (w1 : World) (hg : w.getFrame i = some fr)
    (hv : fr.valid = true) (hf : fr.file = file) (hp : fr.pinCnt = 0) (hd : fr.dirty = true)
    (hwp : File.writePage w file fr.pageNo fr.page = (.OK, w1)) :
    flushFileLoop file (i :: rest) w =
      flushFileLoop file rest
        (flushInvalidate file (w1.setFrame i { fr with dirty := false }) i) := by
  simp only [flushFileLoop, hg, hv, hf, hp, hd]
  rw [hwp]
  simp

theorem flushLoop_cons_dirty_fail (file : Option FileName) (i : Nat) (rest : List Nat)
    (w : World) (fr : Frame) (st : Status) (w1 : World) (hg : w.getFrame i = some fr)
    (hv : fr.valid = true) (hf : fr.file = file) (hp : fr.pinCnt = 0) (hd : fr.dirty = true)
    (hwp : File.writePage w file fr.pageNo fr.page = (st, w1)) (hst : st ≠ .OK) :
    flushFileLoop file (i :: rest) w = (st, w) := by
  simp only [flushFileLoop, hg, hv, hf, hp, hd]
  rw [hwp]
  cases st
  · exact absurd rfl hst
  all_goals simp

/-- Every frame of the file seen through `l` is valid, unpinned, and (when
dirty) backed by a disk page the provider can rewrite. -/
def cleanOn (file : Option FileName) (l : List Nat) (w : World) : Prop :=
  ∀ m ∈ l, ∀ frm : Frame, w.getFrame m = some frm → frm.file = file →
    frm.valid = true ∧ frm.pinCnt = 0 ∧ (frm.dirty = true → onDisk w file frm.pageNo = true)

/-- Distinct frames of the file hold distinct page numbers on `l`. -/
def distinctPagesOn (file : Option FileName) (l : List Nat) (w : World) : Prop :=
  ∀ m ∈ l, ∀ m' ∈ l, m ≠ m' → ∀ frm frm' : Frame, w.getFrame m = some frm →
    w.getFrame m' = some frm' → frm.file = file → frm'.file = file →
    frm.pageNo ≠ frm'.pageNo

theorem flushLoop_clean (file : Option FileName) :
    ∀ (l : List Nat) (w : World),
    l.Nodup →
    (w.hashTable.map Prod.fst).Nodup →
    cleanOn file l w →
    distinctPagesOn file l w →
    (flushFileLoop file l w).1 = .OK
    ∧ ((flushFileLoop file l w).2.hashTable.map Prod.fst).Nodup
    ∧ (∀ m, m ∉ l → (flushFileLoop file l w).2.getFrame m = w.getFrame m)
    ∧ (∀ m ∈ l, ∀ frm : Frame, w.getFrame m = some frm → frm.file ≠ file →
        (flushFileLoop file l w).2.getFrame m = some frm)
    ∧ (∀ m ∈ l, ∀ frm : Frame, w.getFrame m = some frm → frm.file = file →
        (flushFileLoop file l w).2.getFrame m = some (invalidatedFrame frm))
    ∧ (∀ m ∈ l, ∀ frm : Frame, w.getFrame m = some frm → frm.file = file →
        hLookup (flushFileLoop file l w).2.hashTable (file, frm.pageNo) = none)
    ∧ (∀ k, hLookup w.hashTable k = none →
        hLookup (flushFileLoop file l w).2.hashTable k = none)
    ∧ (∀ m ∈ l, ∀ frm : Frame, w.getFrame m = some frm → frm.file = file →
        frm.dirty = true → diskPage (flushFileLoop file l w).2 file frm.pageNo = some frm.page)
    ∧ (∀ p pg, diskPage w file p = some pg →
        (∀ m ∈ l, ∀ frm : Frame, w.getFrame m = some frm → frm.file = file →
          frm.dirty = true → frm.pageNo ≠ p) →
        diskPage (flushFileLoop file l w).2 file p = some pg)
    ∧ (∀ f' p', onDisk (flushFileLoop file l w).2 f' p' = onDisk w f' p') := by
  intro l
  induction l with
  | nil =>
    intro w _ hkeys _ _
    refine ⟨rfl, hkeys, fun m _ => rfl, ?_, ?_, ?_, fun k hk => hk, ?_, ?_, fun f' p' => rfl⟩
    · intro m hm
      cases hm
    · intro m hm
      cases hm
    · intro m hm
      cases hm
    · intro m hm
      cases hm
    · intro p pg h1 _
      exact h1
  | cons i rest ih =>
    intro w hnd hkeys hclean hdist
    have hndi : i ∉ rest := (List.nodup_cons.mp hnd).1
    have hndr : rest.Nodup := (List.nodup_cons.mp hnd).2
    cases hg : w.getFrame i with
    | none =>
      rw [flushLoop_cons_none file i rest w hg]
      have hcr : cleanOn file rest w := fun m hm => hclean m (List.mem_cons_of_mem i hm)
      have hdr : distinctPagesOn file rest w := fun m hm m' hm' =>
        hdist m (List.mem_cons_of_mem i hm) m' (List.mem_cons_of_mem i hm')
      obtain ⟨ih1, ih2, ih3, ih4, ih5, ih6, ih7, ih8, ih9, ih10⟩ := ih w hndr hkeys hcr hdr
      refine ⟨ih1, ih2, fun m hm => ih3 m (fun hx => hm (List.mem_cons_of_mem i hx)), ?_, ?_, ?_,
        ih7, ?_, ?_, ih10⟩
      · intro m hm frm hfrm hne
        rcases List.mem_cons.mp hm with rfl | hm'
        · rw [hg] at hfrm; cases hfrm
        · exact ih4 m hm' frm hfrm hne
      · intro m hm frm hfrm hfe
        rcases List.mem_cons.mp hm with rfl | hm'
        · rw [hg] at hfrm; cases hfrm
        · exact ih5 m hm' frm hfrm hfe
      · intro m hm frm hfrm hfe
        rcases List.mem_cons.mp hm with rfl | hm'
        · rw [hg] at hfrm; cases hfrm
        · exact ih6 m hm' frm hfrm hfe
      · intro m hm frm hfrm hfe hdirty
        rcases List.mem_cons.mp hm with rfl | hm'
        · rw [hg] at hfrm; cases hfrm
        · exact ih8 m hm' frm hfrm hfe hdirty
      · intro p pg h1 h2
        exact ih9 p pg h1 (fun m hm => h2 m (List.mem_cons_of_mem i hm))
    | some fr =>
      by_cases hmatch : fr.file = file
      · obtain ⟨hv, hp, hdisk⟩ := hclean i (List.mem_cons_self i rest) fr hg hmatch
        -- the step world and its relation to `w`
        have hstep : ∃ wstep,
            flushFileLoop file (i :: rest) w = flushFileLoop file rest wstep
            ∧ (∀ j, j ≠ i → wstep.getFrame j = w.getFrame j)
            ∧ wstep.getFrame i = some (invalidatedFrame fr)
            ∧ wstep.hashTable = aremove w.hashTable (file, fr.pageNo)
            ∧ (∀ f' p', onDisk wstep f' p' = onDisk w f' p')
            ∧ (∀ p', p' ≠ fr.pageNo ∨ fr.dirty = false →
                diskPage wstep file p' = diskPage w file p')
            ∧ (fr.dirty = true → diskPage wstep file fr.pageNo = some fr.page) := by
          cases hd : fr.dirty with
          | false =>
            refine ⟨flushInvalidate file w i,
              flushLoop_cons_clean file i rest w fr hg hv hmatch hp hd,
              fun j hj => flushInvalidate_getFrame_ne file w i j hj, ?_,
              flushInvalidate_hash file w i fr hg,
              fun f' p' => onDisk_congr w _ f' p' (flushInvalidate_disk file w i),
              fun p' _ => diskPage_congr w _ file p' (flushInvalidate_disk file w i), ?_⟩
            · rw [flushInvalidate_getFrame_self file w i fr hg]
              have hfr : invalidatedFrame fr = { fr with file := none, pageNo := -1, valid := false } := by
                unfold invalidatedFrame
                cases fr
                simp_all
              rw [hfr]
            · intro hdx
              cases hdx
          | true =>
            have hw : onDisk w file fr.pageNo = true := hdisk hd
            have hwp : File.writePage w file fr.pageNo fr.page =
                (.OK, (File.writePage w file fr.pageNo fr.page).2) := by
              rw [← hmatch]
              exact Prod.ext (writePage_status_of_onDisk w fr.file fr.pageNo fr.page
                (by rw [hmatch]; exact hw)) rfl
            set w1 := (File.writePage w file fr.pageNo fr.page).2 with hw1
            have hshape := writePage_shape w file fr.pageNo fr.page
            rw [← hw1] at hshape
            have hg1 : (w1.setFrame i { fr with dirty := false }).getFrame i =
                some { fr with dirty := false } := by
              apply getFrame_setFrame_self
              show w1.getFrame i = some fr
              unfold World.getFrame
              rw [hshape.2.1]
              exact hg
            refine ⟨flushInvalidate file (w1.setFrame i { fr with dirty := false }) i,
              flushLoop_cons_dirty_eq file i rest w fr w1 hg hv hmatch hp hd hwp, ?_, ?_, ?_,
              ?_, ?_, ?_⟩
            · intro j hj
              rw [flushInvalidate_getFrame_ne file _ i j hj,
                getFrame_setFrame_ne w1 i j _ hj]
              unfold World.getFrame
              rw [hshape.2.1]
            · rw [flushInvalidate_getFrame_self file _ i { fr with dirty := false } hg1]
              rfl
            · rw [flushInvalidate_hash file _ i { fr with dirty := false } hg1]
              simp only [World.setFrame]
              rw [hshape.2.2.2]
            · intro f' p'
              have h1 : (flushInvalidate file (w1.setFrame i { fr with dirty := false }) i).disk
                  = w1.disk := flushInvalidate_disk file _ i
              rw [onDisk_congr _ _ f' p' h1]
              exact writePage_onDisk_pres w file fr.pageNo fr.page f' p'
            · intro p' hor
              have h1 : (flushInvalidate file (w1.setFrame i { fr with dirty := false }) i).disk
                  = w1.disk := flushInvalidate_disk file _ i
              rw [diskPage_congr _ _ file p' h1]
              rcases hor with hpne | hdx
              · exact diskPage_writePage_ne w file fr.pageNo fr.page p' hpne
              · cases hdx
            · intro _
              have h1 : (flushInvalidate file (w1.setFrame i { fr with dirty := false }) i).disk
                  = w1.disk := flushInvalidate_disk file _ i
              rw [diskPage_congr _ _ file fr.pageNo h1]
              exact diskPage_writePage_self w file fr.pageNo fr.page hw
        obtain ⟨wstep, heq, hs1, hs2, hs3, hs5, hs6, hs7⟩ := hstep
        have hkeys' : (wstep.hashTable.map Prod.fst).Nodup := by
          rw [hs3]; exact aremove_keys_nodup w.hashTable _ hkeys
        have hcr : cleanOn file rest wstep := by
          intro m hm frm hfrm hfe
          have hmi : m ≠ i := fun hx => hndi (hx ▸ hm)
          rw [hs1 m hmi] at hfrm
          obtain ⟨c1, c2, c3⟩ := hclean m (List.mem_cons_of_mem i hm) frm hfrm hfe
          exact ⟨c1, c2, fun hdx => by rw [hs5]; exact c3 hdx⟩
        have hdr : distinctPagesOn file rest wstep := by
          intro m hm m' hm' hne frm frm' hfrm hfrm' hfe hfe'
          have hmi : m ≠ i := fun hx => hndi (hx ▸ hm)
          have hmi' : m' ≠ i := fun hx => hndi (hx ▸ hm')
          rw [hs1 m hmi] at hfrm
          rw [hs1 m' hmi'] at hfrm'
          exact hdist m (List.mem_cons_of_mem i hm) m' (List.mem_cons_of_mem i hm') hne
            frm frm' hfrm hfrm' hfe hfe'
        obtain ⟨ih1, ih2, ih3, ih4, ih5, ih6, ih7, ih8, ih9, ih10⟩ :=
          ih wstep hndr hkeys' hcr hdr
        rw [heq]
        refine ⟨ih1, ih2, ?_, ?_, ?_, ?_, ?_, ?_, ?_, ?_⟩
        · intro m hm
          have hmi : m ≠ i := fun hx => hm (hx ▸ List.mem_cons_self i rest)
          rw [ih3 m (fun hx => hm (List.mem_cons_of_mem i hx)), hs1 m hmi]
        · intro m hm frm hfrm hne
          rcases List.mem_cons.mp hm with rfl | hm'
          · rw [hg] at hfrm
            cases hfrm
            exact absurd hmatch hne
          · have hmi : m ≠ i := fun hx => hndi (hx ▸ hm')
            exact ih4 m hm' frm (by rw [hs1 m hmi]; exact hfrm) hne
        · intro m hm frm hfrm hfe
          rcases List.mem_cons.mp hm with rfl | hm'
          · rw [hg] at hfrm
            cases hfrm
            rw [ih3 m hndi]
            exact hs2
          · have hmi : m ≠ i := fun hx => hndi (hx ▸ hm')
            exact ih5 m hm' frm (by rw [hs1 m hmi]; exact hfrm) hfe
        · intro m hm frm hfrm hfe
          rcases List.mem_cons.mp hm with rfl | hm'
          · rw [hg] at hfrm
            cases hfrm
            apply ih7
            rw [hs3]
            unfold hLookup
            exact alookup_aremove_self w.hashTable (file, fr.pageNo) hkeys
          · have hmi : m ≠ i := fun hx => hndi (hx ▸ hm')
            exact ih6 m hm' frm (by rw [hs1 m hmi]; exact hfrm) hfe
        · intro k hk
          apply ih7
          rw [hs3]
          unfold hLookup at hk ⊢
          exact alookup_none_aremove w.hashTable k _ hk
        · intro m hm frm hfrm hfe hdirty
          rcases List.mem_cons.mp hm with rfl | hm'
          · rw [hg] at hfrm
            cases hfrm
            apply ih9 fr.pageNo fr.page (hs7 hdirty)
            intro m' hm' frm' hfrm' hfe' hdirty'
            have hmi' : m' ≠ m := fun hx => hndi (hx ▸ hm')
            rw [hs1 m' hmi'] at hfrm'
            exact fun hx => hdist m' (List.mem_cons_of_mem m hm') m
              (List.mem_cons_self m rest) hmi' frm' fr hfrm' hg hfe' hfe hx
          · have hmi : m ≠ i := fun hx => hndi (hx ▸ hm')
            exact ih8 m hm' frm (by rw [hs1 m hmi]; exact hfrm) hfe hdirty
        · intro p pg h1 h2
          have hstepd : diskPage wstep file p = some pg := by
            cases hd : fr.dirty with
            | false =>
              rw [hs6 p (Or.inr hd)]
              exact h1
            | true =>
              have hpp : p ≠ fr.pageNo := by
                intro hx
                exact h2 i (List.mem_cons_self i rest) fr hg hmatch hd hx.symm
              rw [hs6 p (Or.inl hpp)]
              exact h1
          exact ih9 p pg hstepd (by
            intro m hm frm hfrm hfe hdirty
            have hmi : m ≠ i := fun hx => hndi (hx ▸ hm)
            rw [hs1 m hmi] at hfrm
            exact h2 m (List.mem_cons_of_mem i hm) frm hfrm hfe hdirty)
        · intro f' p'
          rw [ih10 f' p', hs5 f' p']
      · rw [flushLoop_cons_nomatch file i rest w fr hg hmatch]
        have hcr : cleanOn file rest w := fun m hm => hclean m (List.mem_cons_of_mem i hm)
        have hdr : distinctPagesOn file rest w := fun m hm m' hm' =>
          hdist m (List.mem_cons_of_mem i hm) m' (List.mem_cons_of_mem i hm')
        obtain ⟨ih1, ih2, ih3, ih4, ih5, ih6, ih7, ih8, ih9, ih10⟩ := ih w hndr hkeys hcr hdr
        refine ⟨ih1, ih2, fun m hm => ih3 m (fun hx => hm (List.mem_cons_of_mem i hx)), ?_, ?_,
          ?_, ih7, ?_, ?_, ih10⟩
        · intro m hm frm hfrm hne
          rcases List.mem_cons.mp hm with rfl | hm'
          · rw [hg] at hfrm
            cases hfrm
            rw [ih3 m hndi]
            exact hg
          · exact ih4 m hm' frm hfrm hne
        · intro m hm frm hfrm hfe
          rcases List.mem_cons.mp hm with rfl | hm'
          · rw [hg] at hfrm
            cases hfrm
            exact absurd hfe hmatch
          · exact ih5 m hm' frm hfrm hfe
        · intro m hm frm hfrm hfe
          rcases List.mem_cons.mp hm with rfl | hm'
          · rw [hg] at hfrm
            cases hfrm
            exact absurd hfe hmatch
          · exact ih6 m hm' frm hfrm hfe
        · intro m hm frm hfrm hfe hdirty
          rcases List.mem_cons.mp hm with rfl | hm'
          · rw [hg] at hfrm
            cases hfrm
            exact absurd hfe hmatch
          · exact ih8 m hm' frm hfrm hfe hdirty
        · intro p pg h1 h2
          exact ih9 p pg h1 (fun m hm => h2 m (List.mem_cons_of_mem i hm))

theorem flushLoop_append_ok (file : Option FileName) :
    ∀ (l1 l2 : List Nat) (w : World), (flushFileLoop file l1 w).1 = .OK →
    flushFileLoop file (l1 ++ l2) w = flushFileLoop file l2 (flushFileLoop file l1 w).2 := by
  intro l1
  induction l1 with
  | nil => intro l2 w _; rfl
  | cons i rest ih =>
    intro l2 w h
    rw [List.cons_append]
    cases hg : w.getFrame i with
    | none =>
      rw [flushLoop_cons_none file i rest w hg] at h
      rw [flushLoop_cons_none file i (rest ++ l2) w hg, ih l2 w h,
        flushLoop_cons_none file i rest w hg]
    | some fr =>
      by_cases hmatch : fr.file = file
      · cases hv : fr.valid with
        | false =>
          rw [flushLoop_cons_badbuffer file i rest w fr hg hv hmatch] at h
          simp at h
        | true =>
          by_cases hp : fr.pinCnt = 0
          · cases hd : fr.dirty with
            | false =>
              rw [flushLoop_cons_clean file i rest w fr hg hv hmatch hp hd] at h
              rw [flushLoop_cons_clean file i (rest ++ l2) w fr hg hv hmatch hp hd,
                ih l2 _ h, flushLoop_cons_clean file i rest w fr hg hv hmatch hp hd]
            | true =>
              cases hwp : File.writePage w file fr.pageNo fr.page with
              | mk st w1 =>
                by_cases hst : st = .OK
                · subst hst
                  rw [flushLoop_cons_dirty_eq file i rest w fr w1 hg hv hmatch hp hd hwp] at h
                  rw [flushLoop_cons_dirty_eq file i (rest ++ l2) w fr w1 hg hv hmatch hp hd hwp,
                    ih l2 _ h, flushLoop_cons_dirty_eq file i rest w fr w1 hg hv hmatch hp hd hwp]
                · rw [flushLoop_cons_dirty_fail file i rest w fr st w1 hg hv hmatch hp hd hwp
                    hst] at h
                  exact absurd h hst
          · rw [flushLoop_cons_pinned file i rest w fr hg hv hmatch hp] at h
            simp at h
      · rw [flushLoop_cons_nomatch file i rest w fr hg hmatch] at h
        rw [flushLoop_cons_nomatch file i (rest ++ l2) w fr hg hmatch, ih l2 w h,
          flushLoop_cons_nomatch file i rest w fr hg hmatch]

/-- C3 (amended).  `flushFile` scans frames in index order.  (A) When the
first pinned valid frame of the file sits at index `k` and every frame of
the file before it is flushable, `PAGEPINNED` is returned: the pinned frame
and every frame outside the already-scanned prefix are untouched, but
frames of the file in the prefix have already been flushed and invalidated
— `PAGEPINNED` does not mean no frame of the file was mutated.  (B) A frame
whose `file` matches but whose `valid` bit is false yields `BADBUFFER` when
reached.  (C) With no pinned or invalid frame of the file, every dirty
frame is written back, each hash entry removed, each descriptor
invalidated, other frames untouched, and `OK` returned. -/
theorem flushFile_behavior :
    (∀ (w : World) (file : Option FileName) (l1 : List Nat) (k : Nat) (l2 : List Nat)
        (frk : Frame),
      List.range w.numBufs = l1 ++ k :: l2 →
      (l1 ++ k :: l2).Nodup →
      (w.hashTable.map Prod.fst).Nodup →
      w.getFrame k = some frk → frk.valid = true → frk.file = file → frk.pinCnt ≠ 0 →
      cleanOn file l1 w → distinctPagesOn file l1 w →
      (BufMgr.flushFile w file).1 = .PAGEPINNED
      ∧ (∀ m, m ∉ l1 → (BufMgr.flushFile w file).2.getFrame m = w.getFrame m)
      ∧ (∀ m ∈ l1, ∀ frm : Frame, w.getFrame m = some frm → frm.file = file →
          (BufMgr.flushFile w file).2.getFrame m = some (invalidatedFrame frm)))
    ∧ (∀ (w : World) (file : Option FileName) (l1 : List Nat) (k : Nat) (l2 : List Nat)
        (frk : Frame),
      List.range w.numBufs = l1 ++ k :: l2 →
      (l1 ++ k :: l2).Nodup →
      (w.hashTable.map Prod.fst).Nodup →
      w.getFrame k = some frk → frk.valid = false → frk.file = file →
      cleanOn file l1 w → distinctPagesOn file l1 w →
      (BufMgr.flushFile w file).1 = .BADBUFFER)
    ∧ (∀ (w : World) (file : Option FileName),
      (w.hashTable.map Prod.fst).Nodup →
      cleanOn file (List.range w.numBufs) w →
      distinctPagesOn file (List.range w.numBufs) w →
      (BufMgr.flushFile w file).1 = .OK
      ∧ (∀ m ∈ List.range w.numBufs, ∀ frm : Frame, w.getFrame m = some frm →
          frm.file = file →
          (BufMgr.flushFile w file).2.getFrame m = some (invalidatedFrame frm)
          ∧ hLookup (BufMgr.flushFile w file).2.hashTable (file, frm.pageNo) = none
          ∧ (frm.dirty = true →
              diskPage (BufMgr.flushFile w file).2 file frm.pageNo = some frm.page))
      ∧ (∀ m ∈ List.range w.numBufs, ∀ frm : Frame, w.getFrame m = some frm →
          frm.file ≠ file → (BufMgr.flushFile w file).2.getFrame m = some frm)) := by
  refine ⟨?_, ?_, ?_⟩
  · intro w file l1 k l2 frk hrange hnd hkeys hgk hv hf hpin hclean hdist
    have hnd1 : l1.Nodup := (List.nodup_append.mp hnd).1
    have hdisj : l1.Disjoint (k :: l2) := (List.nodup_append.mp hnd).2.2
    have hk1 : k ∉ l1 := fun hx => hdisj hx (List.mem_cons_self k l2)
    obtain ⟨c1, c2, c3, c4, c5, c6, c7, c8, c9, c10⟩ :=
      flushLoop_clean file l1 w hnd1 hkeys hclean hdist
    unfold BufMgr.flushFile
    rw [hrange, flushLoop_append_ok file l1 (k :: l2) w c1]
    have hgk' : (flushFileLoop file l1 w).2.getFrame k = some frk := by
      rw [c3 k hk1]; exact hgk
    rw [flushLoop_cons_pinned file k l2 _ frk hgk' hv hf hpin]
    exact ⟨rfl, fun m hm => c3 m hm, fun m hm frm hfrm hfe => c5 m hm frm hfrm hfe⟩
  · intro w file l1 k l2 frk hrange hnd hkeys hgk hv hf hclean hdist
    have hnd1 : l1.Nodup := (List.nodup_append.mp hnd).1
    have hdisj : l1.Disjoint (k :: l2) := (List.nodup_append.mp hnd).2.2
    have hk1 : k ∉ l1 := fun hx => hdisj hx (List.mem_cons_self k l2)
    obtain ⟨c1, c2, c3, c4, c5, c6, c7, c8, c9, c10⟩ :=
      flushLoop_clean file l1 w hnd1 hkeys hclean hdist
    unfold BufMgr.flushFile
    rw [hrange, flushLoop_append_ok file l1 (k :: l2) w c1]
    have hgk' : (flushFileLoop file l1 w).2.getFrame k = some frk := by
      rw [c3 k hk1]; exact hgk
    rw [flushLoop_cons_badbuffer file k l2 _ frk hgk' hv hf]
  · intro w file hkeys hclean hdist
    obtain ⟨c1, c2, c3, c4, c5, c6, c7, c8, c9, c10⟩ :=
      flushLoop_clean file (List.range w.numBufs) w (List.nodup_range w.numBufs) hkeys
        hclean hdist
    exact ⟨c1,
      fun m hm frm hfrm hfe =>
        ⟨c5 m hm frm hfrm hfe, c6 m hm frm hfrm hfe, fun hd => c8 m hm frm hfrm hfe hd⟩,
      fun m hm frm hfrm hne => c4 m hm frm hfrm hne⟩

/-- Two frames of file `[3]`: frame 0 unpinned and dirty, frame 1 pinned. -/
def wC3 : World :=
  ⟨2,
    [⟨some [3], 1, 0, true, false, true, .raw⟩, ⟨some [3], 2, 1, false, false, true, .raw⟩],
    0, [((some [3], 1), 0), ((some [3], 2), 1)],
    [([3], ⟨1, 3, [(1, .raw), (2, .raw)], 0⟩)]⟩

/-- Counterexample to C3 as stated: `flushFile` returns `PAGEPINNED` for a
file with a pinned frame, yet frame 0 of that same file — valid before the
call — has been invalidated, so the call did mutate a frame of the file. -/
theorem flushFile_pagepinned_mutation_counterexample :
    (BufMgr.flushFile wC3 (some [3])).1 = .PAGEPINNED
    ∧ (wC3.getFrame 0).map Frame.valid = some true
    ∧ (wC3.getFrame 0).map Frame.file = some (some [3])
    ∧ ((BufMgr.flushFile wC3 (some [3])).2.getFrame 0).map Frame.valid = some false := by
  exact ⟨by decide, by decide, by decide, by decide⟩

/-- Witness for C3 (amended), at the two-frame pool `wC3`: the prefix frame
is flushed and invalidated, the pinned frame survives untouched, and
`PAGEPINNED` is returned. -/
theorem flushFile_behavior_witness :
    (BufMgr.flushFile wC3 (some [3])).1 = .PAGEPINNED
    ∧ (BufMgr.flushFile wC3 (some [3])).2.getFrame 1 = wC3.getFrame 1
    ∧ (BufMgr.flushFile wC3 (some [3])).2.getFrame 0 =
        some (invalidatedFrame ⟨some [3], 1, 0, true, false, true, .raw⟩) := by
  have h := flushFile_behavior.1 wC3 (some [3]) [0] 1 []
    ⟨some [3], 2, 1, false, false, true, .raw⟩ (by decide) (by decide) (by decide) (by decide)
    (by decide) (by decide) (by decide)
    (by
      intro m hm frm hfrm hfe
      rw [List.mem_singleton] at hm
      subst hm
      rw [show wC3.getFrame 0 = some ⟨some [3], 1, 0, true, false, true, .raw⟩ from rfl] at hfrm
      cases hfrm
      exact ⟨rfl, rfl, fun _ => rfl⟩)
    (by
      intro m hm m' hm' hne
      rw [List.mem_singleton] at hm hm'
      subst hm
      subst hm'
      exact absurd rfl hne)
  exact ⟨h.1, h.2.1 1 (by decide), h.2.2 0 (by decide)
    ⟨some [3], 1, 0, true, false, true, .raw⟩ rfl rfl⟩

/-! ## Claim C6: `HeapFileScan::startScan` (stage4 variant) -/

/-- C6 (amended).  With a NULL filter the scan is unfiltered and the other
parameters are ignored; with a non-NULL filter any invalid combination is
rejected with `BADSCANPARM` and no state change; a valid combination
stores the five filter parameters.  In every case the stage4 `startScan`
leaves the scan position (`curPage`, `curPageNo`, `curRec`) untouched and
performs no buffer-pool call: it does not reset the scan to the first page
(positioning is established by the constructor). -/
theorem startScan_behavior :
    (∀ (s : ScanState) (offset_ length_ type_ op_ : Int),
      HeapFileScan.startScan s offset_ length_ type_ none op_ =
        (.OK, { s with filter := none }))
    ∧ (∀ (s : ScanState) (offset_ length_ type_ : Int) (f : Nat) (op_ : Int),
        ((offset_ < 0 ∨ length_ < 1) ∨ (type_ ≠ STRING ∧ type_ ≠ INTEGER ∧ type_ ≠ FLOAT) ∨
          ((type_ = INTEGER ∧ length_ ≠ 4) ∨ (type_ = FLOAT ∧ length_ ≠ 4)) ∨
          (op_ ≠ LT ∧ op_ ≠ LTE ∧ op_ ≠ EQ ∧ op_ ≠ GTE ∧ op_ ≠ GT ∧ op_ ≠ NE)) →
        HeapFileScan.startScan s offset_ length_ type_ (some f) op_ = (.BADSCANPARM, s))
    ∧ (∀ (s : ScanState) (offset_ length_ type_ : Int) (f : Nat) (op_ : Int),
        ¬((offset_ < 0 ∨ length_ < 1) ∨ (type_ ≠ STRING ∧ type_ ≠ INTEGER ∧ type_ ≠ FLOAT) ∨
          ((type_ = INTEGER ∧ length_ ≠ 4) ∨ (type_ = FLOAT ∧ length_ ≠ 4)) ∨
          (op_ ≠ LT ∧ op_ ≠ LTE ∧ op_ ≠ EQ ∧ op_ ≠ GTE ∧ op_ ≠ GT ∧ op_ ≠ NE)) →
        HeapFileScan.startScan s offset_ length_ type_ (some f) op_ =
          (.OK, { s with offset := offset_, length := length_, type := type_,
                         filter := some f, op := op_ })) := by
  refine ⟨fun s o l t op_ => rfl, ?_, ?_⟩
  · intro s o l t f op_ h
    simp only [HeapFileScan.startScan]
    rw [if_pos h]
  · intro s o l t f op_ h
    simp only [HeapFileScan.startScan]
    rw [if_neg h]

/-- A scan positioned on page 5 at record (5, 2), of a file whose header
names page 1 as the first data page. -/
def sC6 : ScanState :=
  ⟨⟨some [7], 1, some ⟨[7], 2, 10, 1, 5⟩, false, some 1, 5, false, ⟨5, 2⟩⟩,
    0, 0, 0, none, 2, -1, NULLRID⟩

/-- Counterexample to C6 as stated: a successful stage4 `startScan` leaves
`curPageNo = 5` and `curRec = (5, 2)` even though `headerPage->firstPage`
is 1 — the scan position is not reset to before the first record. -/
theorem startScan_reset_counterexample :
    (HeapFileScan.startScan sC6 0 4 INTEGER none EQ).1 = .OK
    ∧ (HF.hdrDeref sC6.toHF).firstPage = 1
    ∧ (HeapFileScan.startScan sC6 0 4 INTEGER none EQ).2.curPageNo = 5
    ∧ (HeapFileScan.startScan sC6 0 4 INTEGER none EQ).2.curRec = ⟨5, 2⟩
    ∧ (HeapFileScan.startScan sC6 0 4 INTEGER none EQ).2.curPage = some 1 := by
  exact ⟨by decide, by decide, by decide, by decide, by decide⟩

/-- Witness for C6 (amended): a rejected combination (INTEGER with length 3)
leaves the state unchanged, and a valid combination stores the filter. -/
theorem startScan_behavior_witness :
    HeapFileScan.startScan sC6 0 3 INTEGER (some 9) EQ = (.BADSCANPARM, sC6)
    ∧ HeapFileScan.startScan sC6 0 4 INTEGER (some 9) EQ =
        (.OK, { sC6 with offset := 0, length := 4, type := INTEGER, filter := some 9,
                         op := EQ }) :=
  ⟨startScan_behavior.2.1 sC6 0 3 INTEGER 9 EQ (by decide),
   startScan_behavior.2.2 sC6 0 4 INTEGER 9 EQ (by decide)⟩

/-! ## Claim C7: `HeapFile::getRecord` (stage4 variant) -/

/-- C7 (amended).  If `rid.pageNo` equals `curPageNo` the pinned page is
used directly and on success only `curRec.slotNo` is set to `rid.slotNo`
(`curRec.pageNo` is left unchanged, so `curRec` need not equal `rid`);
otherwise the previously pinned page is unpinned propagating its dirty
flag (guarded by `curPageNo ≠ -1`), the requested page is read and pinned
as the new current page with `curDirtyFlag = false`, and on success
`curRec` equals `rid` in both fields.  Both paths delegate the lookup to
the page's `getRecord`. -/
theorem heapFile_getRecord_behavior :
    (∀ (w : World) (hf : HF) (rid : RID) (j : Nat) (r : Rec),
      hf.curPage = some j → hf.curPageNo = rid.pageNo →
      (w.framePage j).getRecord rid = (.OK, some r) →
      HeapFile.getRecord w hf rid =
        (.OK, some r, { hf with curRec := { hf.curRec with slotNo := rid.slotNo } }, w))
    ∧ (∀ (w : World) (hf : HF) (rid : RID) (j : Nat) (w1 : World) (j2 : Nat) (w2 : World)
        (r : Rec),
      hf.curPage = some j → hf.curPageNo ≠ rid.pageNo → hf.curPageNo ≠ -1 →
      BufMgr.unPinPage w hf.filePtr hf.curPageNo hf.curDirtyFlag = (.OK, w1) →
      BufMgr.readPage w1 hf.filePtr rid.pageNo = (.OK, some j2, w2) →
      (w2.framePage j2).getRecord rid = (.OK, some r) →
      HeapFile.getRecord w hf rid =
        (.OK, some r,
          { hf with curPage := some j2, curRec := ⟨rid.pageNo, rid.slotNo⟩,
                    curPageNo := rid.pageNo, curDirtyFlag := false }, w2)) := by
  constructor
  · intro w hf rid j r hj hpn hget
    simp [HeapFile.getRecord, hj, hpn, hget]
  · intro w hf rid j w1 j2 w2 r hj hpn hneg hup hrp hget
    simp [HeapFile.getRecord, HeapFile.getRecordCold, hj, hpn, hneg, hup, hrp, hget]

/-- A data page holding one record in slot 0. -/
def pgC7 : PageM := .data ⟨2, -1, [some ⟨4, 99⟩], 1000⟩

/-- A one-frame world whose frame is pinned on page 2 of file `[7]`. -/
def wC7 : World := ⟨1, [⟨some [7], 2, 1, false, true, true, pgC7⟩], 0, [((some [7], 2), 0)], []⟩

/-- A heap file whose current page is that frame, freshly positioned
(`curRec = NULLRID`). -/
def hfC7 : HF := ⟨some [7], 1, some ⟨[7], 2, 1, 2, 2⟩, false, some 0, 2, false, NULLRID⟩

/-- Counterexample to C7 as stated: on the same-page path the lookup
succeeds but `curRec.pageNo` stays `-1` (from `NULLRID`), so `curRec` does
not equal `rid` in its `pageNo` field. -/
theorem heapFile_getRecord_counterexample :
    (HeapFile.getRecord wC7 hfC7 ⟨2, 0⟩).1 = .OK
    ∧ (HeapFile.getRecord wC7 hfC7 ⟨2, 0⟩).2.2.1.curRec.slotNo = 0
    ∧ (HeapFile.getRecord wC7 hfC7 ⟨2, 0⟩).2.2.1.curRec.pageNo = -1 := by
  exact ⟨by decide, by decide, by decide⟩

/-- Witness for C7 (amended): the same-page path at `wC7`. -/
theorem heapFile_getRecord_behavior_witness :
    HeapFile.getRecord wC7 hfC7 ⟨2, 0⟩ =
      (.OK, some ⟨4, 99⟩, { hfC7 with curRec := { hfC7.curRec with slotNo := 0 } }, wC7) :=
  heapFile_getRecord_behavior.1 wC7 hfC7 ⟨2, 0⟩ 0 ⟨4, 99⟩ (by decide) (by decide) (by decide)

/-! ## Claim C4: `HeapFileScan::scanNext` and `FILEEOF` (stage4 variant) -/

theorem allocBufLoop_status_ne : ∀ (fuel : Nat) (w : World),
    (allocBufLoop fuel w).1 ≠ .FILEEOF := by
  intro fuel
  induction fuel with
  | zero => intro w; simp [allocBufLoop]
  | succ n ih =>
    intro w
    simp only [allocBufLoop]
    split
    · simp
    · split
      · simp
      · split
        · exact ih _
        · split
          · split
            · split
              · unfold evictFrame
                split
                · simp
                · simp
              · simp
            · unfold evictFrame
              split
              · simp
              · simp
          · exact ih _

theorem readPage_status_ne (w : World) (f : Option FileName) (p : Int) :
    (BufMgr.readPage w f p).1 ≠ .FILEEOF := by
  unfold BufMgr.readPage
  cases hl : hLookup w.hashTable (f, p) with
  | some frameNo =>
    cases hg : w.getFrame frameNo with
    | some fr => simp [hg]
    | none => simp [hg]
  | none =>
    have hab : (BufMgr.allocBuf w).1 ≠ .FILEEOF := allocBufLoop_status_ne (w.numBufs * 2) w
    cases habe : BufMgr.allocBuf w with
    | mk st rest =>
      rw [habe] at hab
      simp only at hab
      obtain ⟨fo, w1⟩ := rest
      cases st <;> cases fo <;> simp_all <;> (repeat' split) <;> simp

theorem unPinPage_status_ne (w : World) (f : Option FileName) (p : Int) (d : Bool) :
    (BufMgr.unPinPage w f p d).1 ≠ .FILEEOF := by
  unfold BufMgr.unPinPage
  repeat' split
  all_goals simp

theorem pageGetRecord_status_ne (p : PageM) (rid : RID) :
    (p.getRecord rid).1 ≠ .FILEEOF := by
  unfold PageM.getRecord
  repeat' split
  all_goals simp

theorem pageFirstRecord_status_ne (p : PageM) : (p.firstRecord).1 ≠ .FILEEOF := by
  unfold PageM.firstRecord
  repeat' split
  all_goals simp

theorem pageNextRecord_status_ne (p : PageM) (cur : RID) :
    (p.nextRecord cur).1 ≠ .FILEEOF := by
  unfold PageM.nextRecord
  repeat' split
  all_goals simp

theorem pageGetNextPage_status_ne (p : PageM) : (p.getNextPage).1 ≠ .FILEEOF := by
  unfold PageM.getNextPage
  split
  all_goals simp

theorem scanNextLoop_fileeof_unpinned : ∀ (fuel : Nat) (w : World) (s : ScanState)
    (r : Option RID) (s' : ScanState) (w' : World),
    scanNextLoop fuel w s = (.FILEEOF, r, s', w') →
    s'.curPage = none ∧ s'.curPageNo = -1 := by
  intro fuel
  induction fuel with
  | zero =>
    intro w s r s' w' h
    simp [scanNextLoop] at h
  | succ n ih =>
    intro w s r s' w' h
    simp only [scanNextLoop] at h
    split at h
    · simp at h
    · rename_i j hcp
      have hstep_ne : (if s.curRec.pageNo = NULLRID.pageNo ∧ s.curRec.slotNo = NULLRID.slotNo
          then (w.framePage j).firstRecord
          else (w.framePage j).nextRecord s.curRec).1 ≠ .FILEEOF := by
        split
        · exact pageFirstRecord_status_ne _
        · exact pageNextRecord_status_ne _ _
      generalize hstp : (if s.curRec.pageNo = NULLRID.pageNo ∧ s.curRec.slotNo = NULLRID.slotNo
          then (w.framePage j).firstRecord
          else (w.framePage j).nextRecord s.curRec) = stp at h hstep_ne
      split at h
      · -- ENDOFPAGE / NORECORDS: advance or finish
        split at h
        · -- getNextPage OK
          rename_i nextPageNo hgneq
          split at h
          · -- unPinPage OK
            rename_i w1 hupeq
            split at h
            · -- next-page pointer is -1: the FILEEOF site
              simp only [Prod.mk.injEq] at h
              obtain ⟨_, _, hs, _⟩ := h
              rw [← hs]
              exact ⟨rfl, rfl⟩
            · -- read the next page
              split at h
              · exact ih _ _ _ _ _ h
              · simp at h
              · rename_i heq
                have hne := readPage_status_ne w1 s.filePtr nextPageNo
                rw [heq] at hne
                simp only [Prod.mk.injEq] at h
                exact absurd h.1 hne
          · rename_i heq
            have hne := unPinPage_status_ne w s.filePtr s.curPageNo s.curDirtyFlag
            rw [heq] at hne
            simp only [Prod.mk.injEq] at h
            exact absurd h.1 hne
        · rename_i heq
          have hne := pageGetNextPage_status_ne (w.framePage j)
          rw [heq] at hne
          simp only [Prod.mk.injEq] at h
          exact absurd h.1 hne
      · split at h
        · -- record step failed with a status other than OK
          simp only [Prod.mk.injEq] at h
          exact absurd h.1 hstep_ne
        · -- record step yielded a RID
          split at h
          · -- page getRecord OK
            split at h
            · simp at h
            · exact ih _ _ _ _ _ h
          · rename_i heq
            have hne := pageGetRecord_status_ne (w.framePage j) stp.2
            rw [heq] at hne
            simp only [Prod.mk.injEq] at h
            exact absurd h.1 hne

theorem scanFuel_succ (w : World) : scanFuel w = (scanFuel w - 1) + 1 := by
  unfold scanFuel
  omega

theorem scanNextLoop_eofchain (fuel : Nat) (w : World) (s : ScanState) (j : Nat)
    (d : DataPage) (w1 : World) (hcp : s.curPage = some j)
    (hfr : w.framePage j = PageM.data d)
    (hstep : ((if s.curRec.pageNo = NULLRID.pageNo ∧ s.curRec.slotNo = NULLRID.slotNo
        then (w.framePage j).firstRecord
        else (w.framePage j).nextRecord s.curRec)).1 = .ENDOFPAGE ∨
      ((if s.curRec.pageNo = NULLRID.pageNo ∧ s.curRec.slotNo = NULLRID.slotNo
        then (w.framePage j).firstRecord
        else (w.framePage j).nextRecord s.curRec)).1 = .NORECORDS)
    (hnp : d.nextPage = -1)
    (hup : BufMgr.unPinPage w s.filePtr s.curPageNo s.curDirtyFlag = (.OK, w1)) :
    scanNextLoop (fuel + 1) w s =
      (.FILEEOF, none, { s with curPage := none, curPageNo := -1, curRec := NULLRID }, w1) := by
  have hgn : (w.framePage j).getNextPage = (.OK, -1) := by
    rw [hfr]
    simp [PageM.getNextPage, hnp]
  simp only [scanNextLoop, hcp]
  rw [if_pos hstep, hgn]
  simp only
  rw [hup]
  simp

/-- C4.  `scanNext` (stage4) and `FILEEOF`: on an empty / never-positioned
scan (`curPage = NULL`, `curPageNo = -1`, and the header's `firstPage` is
`-1`) it returns `FILEEOF` leaving scan state and buffer pool untouched —
no frame is pinned for the scan; whenever the current page yields
`ENDOFPAGE` or `NORECORDS` and its next-page pointer is `-1`, the current
data page is first unpinned (propagating the scan's dirty flag) and then
`FILEEOF` is returned with `curPage = NULL`; and every `FILEEOF` return of
`scanNext` leaves the scan holding no data-page pin
(`curPage = NULL`, `curPageNo = -1`). -/
theorem scanNext_fileeof_no_pin :
    (∀ (w : World) (s : ScanState),
      s.curPage = none → s.curPageNo = -1 → (HF.hdrDeref s.toHF).firstPage = -1 →
      HeapFileScan.scanNext w s = (.FILEEOF, none, s, w))
    ∧ (∀ (w : World) (s : ScanState) (j : Nat) (d : DataPage) (w1 : World),
      s.curPage = some j → w.framePage j = PageM.data d →
      (((if s.curRec.pageNo = NULLRID.pageNo ∧ s.curRec.slotNo = NULLRID.slotNo
          then (w.framePage j).firstRecord
          else (w.framePage j).nextRecord s.curRec)).1 = .ENDOFPAGE ∨
        ((if s.curRec.pageNo = NULLRID.pageNo ∧ s.curRec.slotNo = NULLRID.slotNo
          then (w.framePage j).firstRecord
          else (w.framePage j).nextRecord s.curRec)).1 = .NORECORDS) →
      d.nextPage = -1 →
      BufMgr.unPinPage w s.filePtr s.curPageNo s.curDirtyFlag = (.OK, w1) →
      HeapFileScan.scanNext w s =
        (.FILEEOF, none, { s with curPage := none, curPageNo := -1, curRec := NULLRID }, w1))
    ∧ (∀ (w : World) (s : ScanState) (r : Option RID) (s' : ScanState) (w' : World),
      HeapFileScan.scanNext w s = (.FILEEOF, r, s', w') →
      s'.curPage = none ∧ s'.curPageNo = -1) := by
  refine ⟨?_, ?_, ?_⟩
  · intro w s h1 h2 _
    simp [HeapFileScan.scanNext, h1, h2]
  · intro w s j d w1 hcp hfr hstep hnp hup
    have hne : ¬(s.curPage = none ∧ s.curPageNo = -1) := by
      intro hx
      rw [hcp] at hx
      cases hx.1
    simp only [HeapFileScan.scanNext]
    rw [if_neg hne, hcp]
    simp only
    rw [scanFuel_succ w]
    exact scanNextLoop_eofchain _ w s j d w1 hcp hfr hstep hnp hup
  · intro w s r s' w' h
    simp only [HeapFileScan.scanNext] at h
    split at h
    · rename_i hcond
      simp only [Prod.mk.injEq] at h
      obtain ⟨_, _, hs, _⟩ := h
      rw [← hs]
      exact ⟨hcond.1, hcond.2⟩
    · split at h
      · split at h
        · exact scanNextLoop_fileeof_unpinned _ _ _ _ _ _ h
        · simp at h
        · rename_i heq
          have hne := readPage_status_ne w s.filePtr (HF.hdrDeref s.toHF).firstPage
          rw [heq] at hne
          simp only [Prod.mk.injEq] at h
          exact absurd h.1 hne
      · exact scanNextLoop_fileeof_unpinned _ _ _ _ _ _ h

/-- An empty-file scan: nothing pinned, `curPageNo = -1`, header's
`firstPage = -1`. -/
def sC4a : ScanState :=
  ⟨⟨some [7], 1, some ⟨[7], 1, 0, -1, -1⟩, false, none, -1, false, NULLRID⟩,
    0, 0, 0, none, 0, -1, NULLRID⟩

/-- A one-frame pool with nothing pinned. -/
def wC4 : World := ⟨1, [⟨none, -1, 0, false, false, false, .raw⟩], 0, [], []⟩

/-- The last (empty) data page of a chain: no records, next pointer `-1`. -/
def dC4 : DataPage := ⟨2, -1, [], 1004⟩

/-- Pool in which the scan holds that page pinned in frame 0. -/
def wC4b : World :=
  ⟨1, [⟨some [7], 2, 1, false, true, true, .data dC4⟩], 0, [((some [7], 2), 0)], []⟩

/-- A scan positioned on that page. -/
def sC4b : ScanState :=
  ⟨⟨some [7], 1, some ⟨[7], 2, 1, 2, 2⟩, false, some 0, 2, false, NULLRID⟩,
    0, 0, 0, none, 0, -1, NULLRID⟩

/-- `wC4b` after the scan's pin is released. -/
def wC4b' : World :=
  ⟨1, [⟨some [7], 2, 0, false, true, true, .data dC4⟩], 0, [((some [7], 2), 0)], []⟩

/-- Witness for C4: `scanNext` on the empty-file scan returns `FILEEOF`
without touching the pool, and at the end of the chain it unpins the
current page before returning `FILEEOF`. -/
theorem scanNext_fileeof_no_pin_witness :
    HeapFileScan.scanNext wC4 sC4a = (.FILEEOF, none, sC4a, wC4)
    ∧ HeapFileScan.scanNext wC4b sC4b =
        (.FILEEOF, none, { sC4b with curPage := none, curPageNo := -1, curRec := NULLRID },
          wC4b') :=
  ⟨scanNext_fileeof_no_pin.1 wC4 sC4a (by decide) (by decide) (by decide),
   scanNext_fileeof_no_pin.2.1 wC4b sC4b 0 dC4 wC4b' (by decide) (by decide) (by decide)
     (by decide) (by decide)⟩

/-! ## Claim C5: `InsertFileScan::insertRecord` (stage4 variant) -/

theorem framePage_congr (w w' : World) (i : Nat) (h : w'.bufTable = w.bufTable) :
    w'.framePage i = w.framePage i := by
  unfold World.framePage World.getFrame
  rw [h]

theorem framePage_setPage_ne (w : World) (i j : Nat) (pg : PageM) (h : j ≠ i) :
    (w.setPage i pg).framePage j = w.framePage j := by
  unfold World.setPage
  cases hg : w.getFrame i with
  | none => rfl
  | some fr =>
    unfold World.framePage
    rw [getFrame_setFrame_ne w i j _ h]

theorem framePage_setPage_self (w : World) (i : Nat) (pg : PageM) (fr : Frame)
    (h : w.getFrame i = some fr) : (w.setPage i pg).framePage i = pg := by
  unfold World.setPage
  rw [h]
  unfold World.framePage
  rw [getFrame_setFrame_self w i _ fr h]

theorem framePage_setFrame_page_eq (w : World) (i : Nat) (fr fr' : Frame)
    (hg : w.getFrame i = some fr) (hpg : fr'.page = fr.page) (j : Nat) :
    (w.setFrame i fr').framePage j = w.framePage j := by
  by_cases hij : j = i
  · subst hij
    unfold World.framePage
    rw [getFrame_setFrame_self w j fr' fr hg, hg]
    simp [hpg]
  · unfold World.framePage
    rw [getFrame_setFrame_ne w i j fr' hij]

theorem advanceClock_framePage (w : World) (i : Nat) :
    (advanceClock w).framePage i = w.framePage i := rfl

theorem allocBufLoop_framePage : ∀ (fuel : Nat) (w : World) (i : Nat),
    ((allocBufLoop fuel w).2.2).framePage i = w.framePage i := by
  intro fuel
  induction fuel with
  | zero => intro w i; rfl
  | succ n ih =>
    intro w i
    simp only [allocBufLoop]
    split
    · rfl
    · rename_i tmpbuf hg
      split
      · rfl
      · split
        · rw [ih _ i, advanceClock_framePage,
            framePage_setFrame_page_eq w w.clockHand tmpbuf { tmpbuf with refbit := false }
              hg rfl i]
        · split
          · split
            · split
              · rename_i w1 hwp
                have hbt : w1.bufTable = w.bufTable := by
                  have hs := (writePage_shape w tmpbuf.file tmpbuf.pageNo tmpbuf.page).2.1
                  rw [hwp] at hs
                  exact hs
                have hch : w1.clockHand = w.clockHand := by
                  have hs := (writePage_shape w tmpbuf.file tmpbuf.pageNo tmpbuf.page).2.2.1
                  rw [hwp] at hs
                  exact hs
                unfold evictFrame
                split
                · rename_i tbl hrem
                  have hg1 : World.getFrame { w1 with hashTable := tbl } w1.clockHand =
                      some tmpbuf := by
                    show (w1.bufTable).get? w1.clockHand = some tmpbuf
                    rw [hbt, hch]
                    exact hg
                  simp only
                  rw [framePage_setFrame_page_eq { w1 with hashTable := tbl } w1.clockHand
                    tmpbuf tmpbuf.Clear hg1 rfl i]
                  exact framePage_congr w { w1 with hashTable := tbl } i hbt
                · exact framePage_congr w w1 i hbt
              · rfl
            · unfold evictFrame
              split
              · rename_i tbl hrem
                have hg1 : World.getFrame { w with hashTable := tbl } w.clockHand =
                    some tmpbuf := hg
                simp only
                rw [framePage_setFrame_page_eq { w with hashTable := tbl } w.clockHand
                  tmpbuf tmpbuf.Clear hg1 rfl i]
                exact framePage_congr w { w with hashTable := tbl } i rfl
              · rfl
          · rw [ih _ i, advanceClock_framePage]

theorem unPinPage_framePage (w : World) (f : Option FileName) (p : Int) (d : Bool) (i : Nat) :
    ((BufMgr.unPinPage w f p d).2).framePage i = w.framePage i := by
  unfold BufMgr.unPinPage
  split
  · rfl
  · rename_i frameNo hl
    split
    · rfl
    · rename_i fr hgf
      split
      · rfl
      · simp only
        exact framePage_setFrame_page_eq w frameNo fr
          { fr with pinCnt := fr.pinCnt - 1, dirty := fr.dirty || d } hgf rfl i

theorem allocatePage_bufTable (w : World) (f : Option FileName) :
    ((File.allocatePage w f).2.2).bufTable = w.bufTable := by
  unfold File.allocatePage
  repeat' split
  all_goals rfl

theorem hInsert_snd_cases (tbl : List (HKey × Nat)) (k : HKey) (v : Nat) :
    (hInsert tbl k v).2 = tbl ∨ (hInsert tbl k v).2 = (k, v) :: tbl := by
  unfold hInsert
  cases alookup tbl k with
  | none => exact Or.inr rfl
  | some x => exact Or.inl rfl

theorem allocBuf_framePage (w : World) (st : Status) (fo : Option Nat) (w1 : World)
    (h : BufMgr.allocBuf w = (st, fo, w1)) (i : Nat) :
    w1.framePage i = w.framePage i := by
  have := allocBufLoop_framePage (w.numBufs * 2) w i
  unfold BufMgr.allocBuf at h
  rw [h] at this
  exact this

theorem allocPage_framePage (w : World) (f : Option FileName) (st : Status) (p : Int)
    (fo : Option Nat) (w1 : World)
    (h : BufMgr.allocPage w f = (st, p, fo, w1)) (i : Nat) :
    w1.framePage i = w.framePage i := by
  unfold BufMgr.allocPage at h
  split at h
  · rename_i pageNo wap hap
    have hbt : wap.bufTable = w.bufTable := by
      have hx := allocatePage_bufTable w f
      rw [hap] at hx
      exact hx
    split at h
    · rename_i frameNo wab hab
      have hfp : ∀ m, wab.framePage m = w.framePage m := by
        intro m
        rw [allocBuf_framePage wap .OK _ wab hab m]
        exact framePage_congr w wap m hbt
      split at h
      · rename_i tbl hins
        dsimp only at h
        split at h
        · rename_i fr hg3
          simp only [Prod.mk.injEq] at h
          rw [← h.2.2.2]
          rw [framePage_setFrame_page_eq { wab with hashTable := tbl } frameNo fr
            (fr.Set f pageNo) hg3 rfl i]
          exact hfp i
        · simp only [Prod.mk.injEq] at h
          rw [← h.2.2.2]
          exact hfp i
      · simp only [Prod.mk.injEq] at h
        rw [← h.2.2.2]
        exact hfp i
    · rename_i hab
      simp only [Prod.mk.injEq] at h
      rw [← h.2.2.2]
      exact (allocBuf_framePage wap _ _ _ hab i).trans (framePage_congr w wap i hbt)
    · rename_i hab
      simp only [Prod.mk.injEq] at h
      rw [← h.2.2.2]
      exact (allocBuf_framePage wap _ _ _ hab i).trans (framePage_congr w wap i hbt)
  · rename_i hap
    simp only [Prod.mk.injEq] at h
    rw [← h.2.2.2]
    have hx := allocatePage_bufTable w f
    rw [hap] at hx
    exact framePage_congr w _ i hx

/-- C5.  `insertRecord` (stage4): a record longer than `PAGESIZE − DPFIXED`
is rejected with `INVALIDRECLEN` and no side effects; otherwise the record
goes to the current (last) data page — when that page reports `NOSPACE`, a
new page is allocated through the buffer pool and initialized with
`Page::init`, the old page's next-page pointer is set to the new page
number and the old page is unpinned dirty, `headerPage->lastPage` becomes
the new page, `pageCnt` is incremented, and the insert is retried on the
new page; every successful insert sets `curRec = outRid`, marks
`curDirtyFlag`, increments `headerPage->recCnt`, sets `hdrDirtyFlag` and
returns `OK`. -/
theorem insertRecord_behavior :
    (∀ (w : World) (hf : HF) (rec : Rec),
      PAGESIZE - DPFIXED < rec.len →
      InsertFileScan.insertRecord w hf rec = (.INVALIDRECLEN, none, hf, w))
    ∧ (∀ (w : World) (hf : HF) (rec : Rec) (j : Nat) (d : DataPage),
      ¬(PAGESIZE - DPFIXED < rec.len) →
      hf.curPage = some j → w.framePage j = .data d → ¬(d.free < rec.len) →
      InsertFileScan.insertRecord w hf rec =
        (.OK, some ⟨d.pageNo, (d.slots.length : Int)⟩,
          { hf with curDirtyFlag := true,
                    curRec := ⟨d.pageNo, (d.slots.length : Int)⟩,
                    hdrDirtyFlag := true,
                    headerPage := some { HF.hdrDeref hf with
                      recCnt := (HF.hdrDeref hf).recCnt + 1 } },
          w.setPage j
            (.data { d with slots := d.slots ++ [some rec], free := d.free - rec.len })))
    ∧ (∀ (w : World) (hf : HF) (rec : Rec) (j : Nat) (d : DataPage) (newPageNo : Int)
        (newFrame : Nat) (w1 : World) (frN : Frame) (w4 : World),
      ¬(PAGESIZE - DPFIXED < rec.len) →
      hf.curPage = some j → w.framePage j = .data d → d.free < rec.len →
      BufMgr.allocPage w hf.filePtr = (.OK, newPageNo, some newFrame, w1) →
      j ≠ newFrame →
      w1.getFrame newFrame = some frN →
      BufMgr.unPinPage
        ((w1.setPage newFrame (Page.init newPageNo)).setPage j
          (.data { d with nextPage := newPageNo }))
        hf.filePtr hf.curPageNo true = (.OK, w4) →
      InsertFileScan.insertRecord w hf rec =
        (.OK, some ⟨newPageNo, 0⟩,
          { hf with curPage := some newFrame, curPageNo := newPageNo, curDirtyFlag := true,
                    curRec := ⟨newPageNo, 0⟩, hdrDirtyFlag := true,
                    headerPage := some { HF.hdrDeref hf with
                      lastPage := newPageNo,
                      pageCnt := (HF.hdrDeref hf).pageCnt + 1,
                      recCnt := (HF.hdrDeref hf).recCnt + 1 } },
          w4.setPage newFrame
            (.data ⟨newPageNo, -1, [some rec], PAGESIZE - DPFIXED - rec.len⟩))) := by
  refine ⟨?_, ?_, ?_⟩
  · intro w hf rec hlen
    simp [InsertFileScan.insertRecord, hlen]
  · intro w hf rec j d hlen hcp hfrj hfree
    simp only [InsertFileScan.insertRecord]
    rw [if_neg hlen, hcp]
    simp only [insertCore, hcp, hfrj, PageM.insertRecord]
    rw [if_neg hfree]
    simp [insertFinish, hcp]
  · intro w hf rec j d newPageNo newFrame w1 frN w4 hlen hcp hfrj hfree halloc hjn hgn hup
    have hw2j : (w1.setPage newFrame (Page.init newPageNo)).framePage j = .data d := by
      rw [framePage_setPage_ne w1 newFrame j (Page.init newPageNo) hjn]
      rw [allocPage_framePage w hf.filePtr _ _ _ _ halloc j]
      exact hfrj
    have hw4n : w4.framePage newFrame = Page.init newPageNo := by
      have h1 := unPinPage_framePage
        ((w1.setPage newFrame (Page.init newPageNo)).setPage j
          (.data { d with nextPage := newPageNo }))
        hf.filePtr hf.curPageNo true newFrame
      rw [hup] at h1
      rw [h1, framePage_setPage_ne _ j newFrame _ (fun hx => hjn hx.symm)]
      exact framePage_setPage_self w1 newFrame (Page.init newPageNo) frN hgn
    simp only [InsertFileScan.insertRecord]
    rw [if_neg hlen, hcp]
    simp only [insertCore, hcp, hfrj, PageM.insertRecord]
    rw [if_pos hfree]
    simp only [halloc]
    rw [hw2j]
    simp only [PageM.setNextPage]
    rw [hup]
    simp only [hw4n, Page.init, PageM.insertRecord]
    rw [if_neg hlen]
    simp [insertFinish, HF.hdrDeref]

/-- A full current data page (free space 4) for the C5 witness. -/
def dC5 : DataPage := ⟨2, -1, [some ⟨4, 0⟩], 4⟩

/-- Two-frame pool: frame 0 pins page 2 of file `[5]`, frame 1 is free. -/
def wC5 : World :=
  ⟨2,
   [⟨some [5], 2, 1, false, false, true, .data dC5⟩,
    ⟨none, -1, 0, false, false, false, .raw⟩],
   0,
   [((some [5], 2), 0)],
   [([5], ⟨2, 3, [(1, .raw), (2, .raw)], 1⟩)]⟩

/-- The insert scan's heap-file state for the C5 witness. -/
def hfC5 : HF :=
  ⟨some [5], 1, some ⟨[5], 1, 1, 2, 2⟩, false, some 0, 2, false, ⟨2, 0⟩⟩

/-- The world after `allocPage` hands out page 3 in frame 1. -/
def w1C5 : World :=
  ⟨2,
   [⟨some [5], 2, 1, false, false, true, .data dC5⟩,
    ⟨some [5], 3, 1, false, true, true, .raw⟩],
   0,
   [((some [5], 3), 1), ((some [5], 2), 0)],
   [([5], ⟨2, 4, [(1, .raw), (2, .raw), (3, .raw)], 1⟩)]⟩

/-- The world after the old page (frame 0) is unpinned dirty. -/
def w4C5 : World :=
  ⟨2,
   [⟨some [5], 2, 0, true, false, true, .data ⟨2, 3, [some ⟨4, 0⟩], 4⟩⟩,
    ⟨some [5], 3, 1, false, true, true, .data ⟨3, -1, [], PAGESIZE - DPFIXED⟩⟩],
   0,
   [((some [5], 3), 1), ((some [5], 2), 0)],
   [([5], ⟨2, 4, [(1, .raw), (2, .raw), (3, .raw)], 1⟩)]⟩

/-- Witness for C5: an oversized record is rejected; a 3-byte record fits
on the current page directly; a 10-byte record overflows the page, forcing
allocation of page 3 before the insert succeeds there. -/
theorem insertRecord_behavior_witness :
    (PAGESIZE - DPFIXED < 2000 ∧
      InsertFileScan.insertRecord wC5 hfC5 ⟨2000, 0⟩ = (.INVALIDRECLEN, none, hfC5, wC5))
    ∧ InsertFileScan.insertRecord wC5 hfC5 ⟨3, 0⟩ =
        (.OK, some ⟨dC5.pageNo, (dC5.slots.length : Int)⟩,
          { hfC5 with curDirtyFlag := true,
                      curRec := ⟨dC5.pageNo, (dC5.slots.length : Int)⟩,
                      hdrDirtyFlag := true,
                      headerPage := some { HF.hdrDeref hfC5 with
                        recCnt := (HF.hdrDeref hfC5).recCnt + 1 } },
          wC5.setPage 0
            (.data { dC5 with slots := dC5.slots ++ [some ⟨3, 0⟩], free := dC5.free - 3 }))
    ∧ InsertFileScan.insertRecord wC5 hfC5 ⟨10, 1⟩ =
        (.OK, some ⟨3, 0⟩,
          { hfC5 with curPage := some 1, curPageNo := 3, curDirtyFlag := true,
                      curRec := ⟨3, 0⟩, hdrDirtyFlag := true,
                      headerPage := some { HF.hdrDeref hfC5 with
                        lastPage := 3,
                        pageCnt := (HF.hdrDeref hfC5).pageCnt + 1,
                        recCnt := (HF.hdrDeref hfC5).recCnt + 1 } },
          w4C5.setPage 1 (.data ⟨3, -1, [some ⟨10, 1⟩], PAGESIZE - DPFIXED - 10⟩)) := by
  refine ⟨⟨by decide, insertRecord_behavior.1 wC5 hfC5 ⟨2000, 0⟩ (by decide)⟩, ?_, ?_⟩
  · exact insertRecord_behavior.2.1 wC5 hfC5 ⟨3, 0⟩ 0 dC5 (by decide) rfl (by decide) (by decide)
  · exact insertRecord_behavior.2.2 wC5 hfC5 ⟨10, 1⟩ 0 dC5 3 1 w1C5
      ⟨some [5], 3, 1, false, true, true, .raw⟩ w4C5
      (by decide) rfl (by decide) (by decide) (by decide) (by decide) (by decide) (by decide)

theorem aupdate_aupdate {α β : Type} [DecidableEq α] (l : List (α × β)) (k : α) (v v' : β) :
    aupdate (aupdate l k v) k v' = aupdate l k v' := by
  induction l with
  | nil => rfl
  | cons hd tl ih =>
    obtain ⟨a, b⟩ := hd
    by_cases hak : a = k
    · subst hak
      simp [aupdate]
    · simp [aupdate, hak, ih]

/-- An empty, invalid buffer frame. -/
def frInv : Frame := ⟨none, -1, 0, false, false, false, .raw⟩

/-- C8.  `createHeapFile`: when a file of that name already exists the call
returns `FILEEXISTS` and the world — in particular the existing file — is
left unchanged (the probe open is undone by the matching close).
Otherwise (shown for every name, on an empty three-frame pool with the
clock hand at 2 and an empty disk): the file is created and opened, the
header page (page 1) and first data page (page 2) are allocated through
the buffer pool, the header is zeroed and then holds the truncated file
name, `pageCnt = 1`, `recCnt = 0` and `firstPage = lastPage = 2`, the data
page is initialized by `Page::init`, both pages end up unpinned
(`pinCnt = 0`) with their dirty bits set, the file is closed
(`openCnt = 0`) and `OK` is returned. -/
theorem createHeapFile_behavior :
    (∀ (w : World) (name : FileName) (fd : FileData),
      alookup w.disk name = some fd →
      createHeapFile w name = (.FILEEXISTS, w))
    ∧ (∀ name : FileName,
      createHeapFile ⟨3, [frInv, frInv, frInv], 2, [], []⟩ name =
        (.OK,
          ⟨3,
           [⟨some name, 2, 0, true, true, true, .data ⟨2, -1, [], PAGESIZE - DPFIXED⟩⟩,
            frInv,
            ⟨some name, 1, 0, true, true, true,
              .hdr ⟨name.take (MAXNAMESIZE - 1), 1, 0, 2, 2⟩⟩],
           1,
           [((some name, 2), 0), ((some name, 1), 2)],
           [(name, ⟨1, 3, [(1, .raw), (2, .raw)], 0⟩)]⟩)) := by
  constructor
  · intro w name fd h
    have h2 : alookup (aupdate w.disk name { fd with openCnt := fd.openCnt + 1 }) name =
        some { fd with openCnt := fd.openCnt + 1 } :=
      alookup_aupdate_found w.disk name _ fd h
    simp only [createHeapFile, DB.openFile, h, DB.closeFile, h2]
    have h3 : aupdate (aupdate w.disk name { fd with openCnt := fd.openCnt + 1 }) name
        { fd with openCnt := fd.openCnt } = w.disk := by
      rw [aupdate_aupdate]
      exact aupdate_self w.disk name fd h
    simp [h3]
  · intro name
    simp [createHeapFile, DB.openFile, DB.createFile, DB.closeFile, alookup, aupdate,
          BufMgr.allocPage, File.allocatePage, BufMgr.allocBuf, allocBufLoop, advanceClock,
          evictFrame, hInsert, hRemove, hLookup, BufMgr.unPinPage, World.getFrame,
          World.setFrame, World.setPage, World.framePage, World.updHdr, Frame.Set, frInv,
          Page.init]

/-- An existing one-page-less file for the C8 witness. -/
def fdC8 : FileData := ⟨-1, 1, [], 0⟩

/-- A world whose disk already holds file `[2]`. -/
def wC8 : World := ⟨1, [frInv], 0, [], [([2], fdC8)]⟩

/-- Witness for C8: creating existing file `[2]` yields `FILEEXISTS` with
the world unchanged; creating fresh file `[7]` on the empty pool yields
`OK` with header and data page as described. -/
theorem createHeapFile_behavior_witness :
    alookup wC8.disk [2] = some fdC8 ∧
    createHeapFile wC8 [2] = (.FILEEXISTS, wC8) ∧
    createHeapFile ⟨3, [frInv, frInv, frInv], 2, [], []⟩ [7] =
      (.OK,
        ⟨3,
         [⟨some [7], 2, 0, true, true, true, .data ⟨2, -1, [], PAGESIZE - DPFIXED⟩⟩,
          frInv,
          ⟨some [7], 1, 0, true, true, true, .hdr ⟨[7], 1, 0, 2, 2⟩⟩],
         1,
         [((some [7], 2), 0), ((some [7], 1), 2)],
         [([7], ⟨1, 3, [(1, .raw), (2, .raw)], 0⟩)]⟩) :=
  ⟨by decide, createHeapFile_behavior.1 wC8 [2] fdC8 (by decide),
   createHeapFile_behavior.2 [7]⟩

theorem scanNextLoop_marked : ∀ (fuel : Nat) (w : World) (s : ScanState) (st : Status)
    (r : Option RID) (s' : ScanState) (w' : World),
    scanNextLoop fuel w s = (st, r, s', w') →
    s'.markedPageNo = s.markedPageNo ∧ s'.markedRec = s.markedRec := by
  intro fuel
  induction fuel with
  | zero =>
    intro w s st r s' w' h
    simp only [scanNextLoop, Prod.mk.injEq] at h
    obtain ⟨h1, h2, hs, h4⟩ := h
    rw [← hs]
    exact ⟨rfl, rfl⟩
  | succ n ih =>
    intro w s st r s' w' h
    simp only [scanNextLoop] at h
    repeat' split at h
    all_goals first
      | (have hm := ih _ _ _ _ _ _ h
         exact hm)
      | (simp only [Prod.mk.injEq] at h
         obtain ⟨h1, h2, hs, h4⟩ := h
         rw [← hs]
         exact ⟨rfl, rfl⟩)

/-- Build a 10-record heap file by repeated `insertRecord` (length-300
records, three per page). -/
def insN : Nat → World → HF → World × HF
  | 0, w, hf => (w, hf)
  | n + 1, w, hf =>
    let r := InsertFileScan.insertRecord w hf ⟨300, 100 - (n + 1)⟩
    insN n r.2.2.2 r.2.2.1

/-- The C9 scenario: create file `[7]` on an empty three-frame pool and
open it for insertion. -/
def ctorC9 : Status × HF × World := HeapFile.ctor (createHeapFile ⟨3, [frInv, frInv, frInv], 2, [], []⟩ [7]).2 [7]

/-- After the ten inserts. -/
def whC9 : World × HF := insN 10 ctorC9.2.2 ctorC9.2.1

/-- The insert handle's destructor: unpin the current data page (dirty)
and the header page. -/
def wAfterC9 : World :=
  (BufMgr.unPinPage (BufMgr.unPinPage whC9.1 (some [7]) whC9.2.curPageNo true).2
    (some [7]) 1 whC9.2.hdrDirtyFlag).2

/-- A fresh scan handle over the ten-record file. -/
def scanCtorC9 : Status × HF × World := HeapFile.ctor wAfterC9 [7]

/-- The scan's initial state (unfiltered). -/
def s0C9 : ScanState := ⟨scanCtorC9.2.1, 0, 0, 0, none, 0, -1, NULLRID⟩

/-- Advance to the 4th record. -/
def a4C9 : Status × Option RID × ScanState × World := scanSteps 4 scanCtorC9.2.2 s0C9

/-- Mark at the 4th record, then advance to the 7th. -/
def a7C9 : Status × Option RID × ScanState × World :=
  scanSteps 3 a4C9.2.2.2 (HeapFileScan.markScan a4C9.2.2.1).2

/-- Reset back to the mark. -/
def rrC9 : Status × ScanState × World := HeapFileScan.resetScan a7C9.2.2.2 a7C9.2.2.1

/-- C9.  Mark/reset round trip: `markScan` snapshots `(curPageNo, curRec)`
into `(markedPageNo, markedRec)`; every `scanNext` call leaves the marked
fields untouched; `resetScan` restores `curPageNo` and `curRec` to the
marked values — in place when the marked page is the current page, and by
unpinning the current page and re-pinning the marked page clean when they
differ; and on the concrete ten-record file the round trip mark-at-4th
(RID (3,0)), advance-to-7th (RID (4,0)), reset, `scanNext` yields the 5th
record (RID (3,1)). -/
theorem markScan_resetScan_roundtrip :
    (∀ s : ScanState, HeapFileScan.markScan s =
        (.OK, { s with markedPageNo := s.curPageNo, markedRec := s.curRec }))
    ∧ (∀ (w : World) (s : ScanState) (st : Status) (r : Option RID) (s' : ScanState)
        (w' : World),
        HeapFileScan.scanNext w s = (st, r, s', w') →
        s'.markedPageNo = s.markedPageNo ∧ s'.markedRec = s.markedRec)
    ∧ (∀ (w : World) (s : ScanState),
        s.markedPageNo = s.curPageNo →
        HeapFileScan.resetScan w s = (.OK, { s with curRec := s.markedRec }, w))
    ∧ (∀ (w w1 w2 : World) (s : ScanState) (j k : Nat),
        s.markedPageNo ≠ s.curPageNo →
        s.curPage = some j →
        BufMgr.unPinPage w s.filePtr s.curPageNo s.curDirtyFlag = (.OK, w1) →
        BufMgr.readPage w1 s.filePtr s.markedPageNo = (.OK, some k, w2) →
        HeapFileScan.resetScan w s =
          (.OK, { s with curPage := some k, curPageNo := s.markedPageNo,
                         curDirtyFlag := false, curRec := s.markedRec }, w2))
    ∧ ((a4C9.1 = .OK ∧ a4C9.2.1 = some ⟨3, 0⟩)
       ∧ (a7C9.1 = .OK ∧ a7C9.2.1 = some ⟨4, 0⟩)
       ∧ rrC9.1 = .OK
       ∧ (HeapFileScan.scanNext rrC9.2.2 rrC9.2.1).1 = .OK
       ∧ (HeapFileScan.scanNext rrC9.2.2 rrC9.2.1).2.1 = some ⟨3, 1⟩) := by
  refine ⟨fun s => rfl, ?_, ?_, ?_, by decide⟩
  · intro w s st r s' w' h
    simp only [HeapFileScan.scanNext] at h
    split at h
    · simp only [Prod.mk.injEq] at h
      obtain ⟨h1, h2, hs, h4⟩ := h
      rw [← hs]
      exact ⟨rfl, rfl⟩
    · split at h
      · split at h
        · have hm := scanNextLoop_marked _ _ _ _ _ _ _ h
          exact hm
        · simp only [Prod.mk.injEq] at h
          obtain ⟨h1, h2, hs, h4⟩ := h
          rw [← hs]
          exact ⟨rfl, rfl⟩
        · simp only [Prod.mk.injEq] at h
          obtain ⟨h1, h2, hs, h4⟩ := h
          rw [← hs]
          exact ⟨rfl, rfl⟩
      · have hm := scanNextLoop_marked _ _ _ _ _ _ _ h
        exact hm
  · intro w s h
    unfold HeapFileScan.resetScan
    rw [if_neg (by simp [h])]
  · intro w w1 w2 s j k hne hcp hup hrd
    unfold HeapFileScan.resetScan
    rw [if_pos hne, hcp]
    simp only []
    rw [hup]
    simp only []
    rw [hrd]

/-- A one-frame world for the trivial C9 witness instances. -/
def wEmptyC9 : World := ⟨1, [frInv], 0, [], []⟩

/-- A scan already at end of file (no page pinned). -/
def sEofC9 : ScanState :=
  ⟨⟨some [5], 1, none, false, none, -1, false, NULLRID⟩, 0, 0, 0, none, 0, -1, NULLRID⟩

/-- A scan whose mark sits on the current page. -/
def sC9s : ScanState :=
  ⟨⟨some [5], 1, none, false, some 0, 2, false, ⟨2, 1⟩⟩, 0, 0, 0, none, 0, 2, ⟨2, 0⟩⟩

/-- A two-frame world with page 2 pinned (frame 0) and page 3 resident
unpinned (frame 1), for the page-changing reset. -/
def wC9w : World :=
  ⟨2,
   [⟨some [5], 2, 1, false, false, true, .raw⟩,
    ⟨some [5], 3, 0, false, false, true, .raw⟩],
   0,
   [((some [5], 2), 0), ((some [5], 3), 1)],
   [([5], ⟨2, 4, [(2, .raw), (3, .raw)], 1⟩)]⟩

/-- A scan on page 2 whose mark sits on page 3. -/
def sC9w : ScanState :=
  ⟨⟨some [5], 1, some ⟨[5], 2, 6, 2, 3⟩, false, some 0, 2, false, ⟨2, 1⟩⟩,
   0, 0, 0, none, 0, 3, ⟨3, 0⟩⟩

/-- `wC9w` after the current page (frame 0) is unpinned. -/
def w1C9w : World :=
  ⟨2,
   [⟨some [5], 2, 0, false, false, true, .raw⟩,
    ⟨some [5], 3, 0, false, false, true, .raw⟩],
   0,
   [((some [5], 2), 0), ((some [5], 3), 1)],
   [([5], ⟨2, 4, [(2, .raw), (3, .raw)], 1⟩)]⟩

/-- `w1C9w` after the marked page 3 (frame 1) is re-pinned. -/
def w2C9w : World :=
  ⟨2,
   [⟨some [5], 2, 0, false, false, true, .raw⟩,
    ⟨some [5], 3, 1, false, true, true, .raw⟩],
   0,
   [((some [5], 2), 0), ((some [5], 3), 1)],
   [([5], ⟨2, 4, [(2, .raw), (3, .raw)], 1⟩)]⟩

/-- Witness for C9: the snapshot, the marked-field preservation across a
`scanNext` call, the in-place reset, and the page-changing reset, each at
concrete inputs. -/
theorem markScan_resetScan_roundtrip_witness :
    HeapFileScan.markScan sC9w =
      (.OK, { sC9w with markedPageNo := sC9w.curPageNo, markedRec := sC9w.curRec })
    ∧ (HeapFileScan.scanNext wEmptyC9 sEofC9 = (.FILEEOF, none, sEofC9, wEmptyC9) ∧
       sEofC9.markedPageNo = sEofC9.markedPageNo ∧ sEofC9.markedRec = sEofC9.markedRec)
    ∧ (sC9s.markedPageNo = sC9s.curPageNo ∧
       HeapFileScan.resetScan wEmptyC9 sC9s =
         (.OK, { sC9s with curRec := sC9s.markedRec }, wEmptyC9))
    ∧ (sC9w.markedPageNo ≠ sC9w.curPageNo ∧
       HeapFileScan.resetScan wC9w sC9w =
         (.OK, { sC9w with curPage := some 1, curPageNo := sC9w.markedPageNo,
                           curDirtyFlag := false, curRec := sC9w.markedRec }, w2C9w)) :=
  ⟨markScan_resetScan_roundtrip.1 sC9w,
   ⟨by decide,
    markScan_resetScan_roundtrip.2.1 wEmptyC9 sEofC9 .FILEEOF none sEofC9 wEmptyC9 (by decide)⟩,
   ⟨by decide, markScan_resetScan_roundtrip.2.2.1 wEmptyC9 sC9s (by decide)⟩,
   ⟨by decide,
    markScan_resetScan_roundtrip.2.2.2.1 wC9w w1C9w w2C9w sC9w 0 1
      (by decide) (by decide) (by decide) (by decide)⟩⟩

/-- The world right after the constructor's `db.openFile` probe succeeds. -/
def wOpenC10 (w : World) (name : FileName) (fd : FileData) : World :=
  { w with disk := aupdate w.disk name { fd with openCnt := fd.openCnt + 1 } }

/-- C10.  `HeapFile::HeapFile` failure cleanup (`src/unnamed/part_001`): on
any non-OK return the instance holds no page reference (`curPage` and
`headerPage` are null) and `filePtr` is null, so the destructor performs no
unpin and no close (it returns the world unchanged).  Path by path: a
file-open failure returns `UNIXERR` with the world untouched; a negative
first-page number returns `BADPAGENO` with the probe open undone by the
matching close, restoring the world exactly; a failed buffer-pool read of
the header page propagates that status after closing the file; and a
failed read of the first data page propagates its status after unpinning
the header page and closing the file. -/
theorem heapFile_ctor_failure_cleanup :
    (∀ (w : World) (name : FileName) (st : Status) (hf : HF) (w' : World),
      HeapFile.ctor w name = (st, hf, w') → st ≠ .OK →
      hf.filePtr = none ∧ hf.curPage = none ∧ hf.headerPage = none ∧
      HeapFile.dtor w' hf = w')
    ∧ (∀ (w : World) (name : FileName),
      alookup w.disk name = none →
      HeapFile.ctor w name = (.UNIXERR, ⟨none, -1, none, false, none, -1, false, NULLRID⟩, w))
    ∧ (∀ (w : World) (name : FileName) (fd : FileData),
      alookup w.disk name = some fd → fd.firstPageNo < 0 →
      HeapFile.ctor w name =
        (.BADPAGENO, ⟨none, fd.firstPageNo, none, false, none, -1, false, NULLRID⟩, w))
    ∧ (∀ (w : World) (name : FileName) (fd : FileData) (rst : Status) (fo : Option Nat)
        (w2 : World),
      alookup w.disk name = some fd → ¬fd.firstPageNo < 0 →
      BufMgr.readPage (wOpenC10 w name fd) (some name) fd.firstPageNo = (rst, fo, w2) →
      rst ≠ .OK →
      HeapFile.ctor w name =
        (rst, ⟨none, fd.firstPageNo, none, false, none, -1, false, NULLRID⟩,
          (DB.closeFile w2 (some name)).2))
    ∧ (∀ (w : World) (name : FileName) (fd : FileData) (hdrFrame : Nat) (w2 : World)
        (hdr : FileHdr) (rst : Status) (fo : Option Nat) (w3 : World),
      alookup w.disk name = some fd → ¬fd.firstPageNo < 0 →
      BufMgr.readPage (wOpenC10 w name fd) (some name) fd.firstPageNo =
        (.OK, some hdrFrame, w2) →
      w2.framePage hdrFrame = .hdr hdr →
      hdr.firstPage ≠ -1 →
      BufMgr.readPage w2 (some name) hdr.firstPage = (rst, fo, w3) →
      rst ≠ .OK →
      HeapFile.ctor w name =
        (rst, ⟨none, fd.firstPageNo, none, false, none, -1, false, NULLRID⟩,
          (DB.closeFile ((BufMgr.unPinPage w3 (some name) fd.firstPageNo false).2)
            (some name)).2)) := by
  refine ⟨?_, ?_, ?_, ?_, ?_⟩
  · intro w name st hf w' h hst
    simp only [HeapFile.ctor] at h
    repeat' split at h
    all_goals
      simp only [Prod.mk.injEq] at h
      obtain ⟨h1, h2, h3⟩ := h
    all_goals
      first
        | exact absurd h1.symm hst
        | (rw [← h2]
           exact ⟨rfl, rfl, rfl, by simp [HeapFile.dtor]⟩)
  · intro w name h
    simp [HeapFile.ctor, DB.openFile, h]
  · intro w name fd h hlt
    have h2 : alookup (aupdate w.disk name { fd with openCnt := fd.openCnt + 1 }) name =
        some { fd with openCnt := fd.openCnt + 1 } :=
      alookup_aupdate_found w.disk name _ fd h
    have h3 : aupdate (aupdate w.disk name { fd with openCnt := fd.openCnt + 1 }) name
        { fd with openCnt := fd.openCnt } = w.disk := by
      rw [aupdate_aupdate]
      exact aupdate_self w.disk name fd h
    simp only [HeapFile.ctor, DB.openFile, h, File.getFirstPage, h2, DB.closeFile]
    rw [if_pos (Or.inr hlt)]
    simp [h3]
  · intro w name fd rst fo w2 h hlt hrd hrst
    have h2 : alookup (aupdate w.disk name { fd with openCnt := fd.openCnt + 1 }) name =
        some { fd with openCnt := fd.openCnt + 1 } :=
      alookup_aupdate_found w.disk name _ fd h
    simp only [wOpenC10] at hrd
    simp only [HeapFile.ctor, DB.openFile, h, File.getFirstPage, h2]
    rw [if_neg (by simp [hlt])]
    rw [hrd]
    cases rst
    all_goals first | exact absurd rfl hrst | rfl
  · intro w name fd hdrFrame w2 hdr rst fo w3 h hlt hrd1 hfp hne hrd2 hrst
    have h2 : alookup (aupdate w.disk name { fd with openCnt := fd.openCnt + 1 }) name =
        some { fd with openCnt := fd.openCnt + 1 } :=
      alookup_aupdate_found w.disk name _ fd h
    simp only [wOpenC10] at hrd1
    simp only [HeapFile.ctor, DB.openFile, h, File.getFirstPage, h2]
    rw [if_neg (by simp [hlt])]
    rw [hrd1]
    simp only [hfp]
    rw [if_pos hne]
    rw [hrd2]
    cases rst
    all_goals first | exact absurd rfl hrst | rfl

/-- The null instance state the failing constructor hands back. -/
def hfNullC10 : HF := ⟨none, -1, none, false, none, -1, false, NULLRID⟩

/-- A world with no file at all. -/
def wEmptyC10 : World := ⟨1, [frInv], 0, [], []⟩

/-- A file whose first-page number is invalid (`-1`). -/
def fdBadC10 : FileData := ⟨-1, 1, [], 0⟩

/-- A world holding only that invalid file. -/
def wBadC10 : World := ⟨1, [frInv], 0, [], [([9], fdBadC10)]⟩

/-- A file whose header page 2 exists on disk. -/
def fdPinC10 : FileData := ⟨2, 3, [(2, .raw)], 0⟩

/-- A one-frame pool fully pinned by another client, so the header read
fails with `BUFFEREXCEEDED`. -/
def wPinC10 : World :=
  ⟨1, [⟨some [9], 5, 1, false, false, true, .raw⟩], 0, [((some [9], 5), 0)],
   [([9], fdPinC10)]⟩

/-- A header page whose first data page (3) is missing from the disk. -/
def hdrC10 : FileHdr := ⟨[9], 1, 0, 3, 3⟩

/-- The file holding only that header page. -/
def fdHdrC10 : FileData := ⟨1, 4, [(1, .hdr hdrC10)], 0⟩

/-- A two-frame pool over that file. -/
def wHdrC10 : World := ⟨2, [frInv, frInv], 0, [], [([9], fdHdrC10)]⟩

/-- `wHdrC10` after the constructor pins the header page in frame 0. -/
def w2C10 : World :=
  ⟨2, [⟨some [9], 1, 1, false, true, true, .hdr hdrC10⟩, frInv], 1,
   [((some [9], 1), 0)], [([9], ⟨1, 4, [(1, .hdr hdrC10)], 1⟩)]⟩

/-- `w2C10` after the failed data-page read (only the clock hand moved). -/
def w3C10 : World :=
  ⟨2, [⟨some [9], 1, 1, false, true, true, .hdr hdrC10⟩, frInv], 0,
   [((some [9], 1), 0)], [([9], ⟨1, 4, [(1, .hdr hdrC10)], 1⟩)]⟩

/-- Witness for C10: the four failure paths at concrete inputs, and the
null-handle/no-op-destructor conclusion on the first of them. -/
theorem heapFile_ctor_failure_cleanup_witness :
    (HeapFile.ctor wEmptyC10 [9] = (.UNIXERR, hfNullC10, wEmptyC10) ∧
      hfNullC10.filePtr = none ∧ hfNullC10.curPage = none ∧ hfNullC10.headerPage = none ∧
      HeapFile.dtor wEmptyC10 hfNullC10 = wEmptyC10)
    ∧ HeapFile.ctor wEmptyC10 [9] = (.UNIXERR, hfNullC10, wEmptyC10)
    ∧ HeapFile.ctor wBadC10 [9] = (.BADPAGENO, ⟨none, -1, none, false, none, -1, false, NULLRID⟩, wBadC10)
    ∧ HeapFile.ctor wPinC10 [9] =
        (.BUFFEREXCEEDED, ⟨none, 2, none, false, none, -1, false, NULLRID⟩,
          (DB.closeFile (wOpenC10 wPinC10 [9] fdPinC10) (some [9])).2)
    ∧ HeapFile.ctor wHdrC10 [9] =
        (.UNIXERR, ⟨none, 1, none, false, none, -1, false, NULLRID⟩,
          (DB.closeFile ((BufMgr.unPinPage w3C10 (some [9]) 1 false).2) (some [9])).2) :=
  ⟨⟨by decide,
    heapFile_ctor_failure_cleanup.1 wEmptyC10 [9] .UNIXERR hfNullC10 wEmptyC10
      (by decide) (by decide)⟩,
   heapFile_ctor_failure_cleanup.2.1 wEmptyC10 [9] (by decide),
   heapFile_ctor_failure_cleanup.2.2.1 wBadC10 [9] fdBadC10 (by decide) (by decide),
   heapFile_ctor_failure_cleanup.2.2.2.1 wPinC10 [9] fdPinC10 .BUFFEREXCEEDED none
     (wOpenC10 wPinC10 [9] fdPinC10) (by decide) (by decide) (by decide) (by decide),
   heapFile_ctor_failure_cleanup.2.2.2.2 wHdrC10 [9] fdHdrC10 0 w2C10 hdrC10 .UNIXERR none
     w3C10 (by decide) (by decide) (by decide) (by decide) (by decide) (by decide) (by decide)⟩

theorem getFrame_bufTable_eq (w1 w : World) (i : Nat) (h : w1.bufTable = w.bufTable) :
    w1.getFrame i = w.getFrame i := by
  unfold World.getFrame
  rw [h]

theorem allocBufLoop_pinned : ∀ (fuel : Nat) (w : World) (st : Status) (fo : Option Nat)
    (w1 : World) (i : Nat) (fr : Frame),
    allocBufLoop fuel w = (st, fo, w1) → w.getFrame i = some fr → 0 < fr.pinCnt →
    w1.getFrame i = some fr ∨ w1.getFrame i = some { fr with refbit := false } := by
  intro fuel
  induction fuel with
  | zero =>
    intro w st fo w1 i fr h hg hp
    simp only [allocBufLoop, Prod.mk.injEq] at h
    obtain ⟨h1, h2, h3⟩ := h
    rw [← h3]
    exact Or.inl hg
  | succ n ih =>
    intro w st fo w1 i fr h hg hp
    simp only [allocBufLoop] at h
    split at h
    · simp only [Prod.mk.injEq] at h
      obtain ⟨h1, h2, h3⟩ := h
      rw [← h3]
      exact Or.inl hg
    · rename_i tmpbuf heq
      split at h
      · -- invalid frame chosen: no frame mutated
        simp only [Prod.mk.injEq] at h
        obtain ⟨h1, h2, h3⟩ := h
        rw [← h3]
        exact Or.inl hg
      · split at h
        · -- refbit set on the inspected frame: clear it and recurse
          by_cases hik : i = w.clockHand
          · have hfr : tmpbuf = fr := by
              rw [hik, heq] at hg
              exact Option.some.inj hg
            rw [hfr] at h heq
            have hg' : (advanceClock
                (w.setFrame w.clockHand { fr with refbit := false })).getFrame i =
                some { fr with refbit := false } := by
              rw [hik]
              exact getFrame_setFrame_self w w.clockHand _ fr heq
            rcases ih _ _ _ _ _ _ h hg' hp with h' | h'
            · exact Or.inr h'
            · exact Or.inr h'
          · have hg' : (advanceClock
                (w.setFrame w.clockHand { tmpbuf with refbit := false })).getFrame i =
                some fr := by
              have h2 := getFrame_setFrame_ne w w.clockHand i { tmpbuf with refbit := false } hik
              show (w.setFrame w.clockHand { tmpbuf with refbit := false }).getFrame i = some fr
              rw [h2]
              exact hg
            exact ih _ _ _ _ _ _ h hg' hp
        · split at h
          · -- pinCnt = 0: the victim path, so this is not frame i
            rename_i hpin
            have hne : i ≠ w.clockHand := by
              intro hc
              rw [hc, heq] at hg
              injection hg with hfr
              rw [← hfr] at hp
              omega
            split at h
            · -- dirty victim: write back, then evict
              split at h
              · rename_i w2 hwp
                have hsh := writePage_shape w tmpbuf.file tmpbuf.pageNo tmpbuf.page
                rw [hwp] at hsh
                simp only [evictFrame] at h
                split at h
                · simp only [Prod.mk.injEq] at h
                  obtain ⟨h1, h2, h3⟩ := h
                  rw [← h3]
                  left
                  have hne2 : i ≠ w2.clockHand := by
                    rw [hsh.2.2.1]
                    exact hne
                  rw [getFrame_setFrame_ne _ _ _ _ hne2]
                  show w2.getFrame i = some fr
                  rw [getFrame_bufTable_eq w2 w i hsh.2.1]
                  exact hg
                · simp only [Prod.mk.injEq] at h
                  obtain ⟨h1, h2, h3⟩ := h
                  rw [← h3]
                  left
                  rw [getFrame_bufTable_eq w2 w i hsh.2.1]
                  exact hg
              · simp only [Prod.mk.injEq] at h
                obtain ⟨h1, h2, h3⟩ := h
                rw [← h3]
                exact Or.inl hg
            · -- clean victim: evict directly
              simp only [evictFrame] at h
              split at h
              · simp only [Prod.mk.injEq] at h
                obtain ⟨h1, h2, h3⟩ := h
                rw [← h3]
                left
                rw [getFrame_setFrame_ne _ _ _ _ hne]
                exact hg
              · simp only [Prod.mk.injEq] at h
                obtain ⟨h1, h2, h3⟩ := h
                rw [← h3]
                exact Or.inl hg
          · -- pinned frame skipped untouched
            exact ih _ _ _ _ _ _ h hg hp

theorem allocBufLoop_victim : ∀ (fuel : Nat) (w : World) (st : Status) (j : Nat) (w1 : World),
    allocBufLoop fuel w = (st, some j, w1) →
    ∃ fr, w.getFrame j = some fr ∧ (fr.valid = false ∨ fr.pinCnt = 0) := by
  intro fuel
  induction fuel with
  | zero =>
    intro w st j w1 h
    simp [allocBufLoop] at h
  | succ n ih =>
    intro w st j w1 h
    simp only [allocBufLoop] at h
    split at h
    · simp at h
    · rename_i tmpbuf heq
      split at h
      · -- invalid frame chosen at the hand
        rename_i hval
        simp only [Prod.mk.injEq] at h
        obtain ⟨h1, h2, h3⟩ := h
        have hj : w.clockHand = j := Option.some.inj h2
        exact ⟨tmpbuf, hj ▸ heq, Or.inl hval⟩
      · split at h
        · -- refbit cleared, skipped: recurse
          obtain ⟨fr, hfg, hprop⟩ := ih _ _ _ _ h
          by_cases hjk : j = w.clockHand
          · rw [hjk] at hfg
            have hset : (advanceClock
                (w.setFrame w.clockHand { tmpbuf with refbit := false })).getFrame w.clockHand =
                some { tmpbuf with refbit := false } :=
              getFrame_setFrame_self w w.clockHand _ tmpbuf heq
            rw [hset] at hfg
            have hfr := Option.some.inj hfg
            refine ⟨tmpbuf, hjk ▸ heq, ?_⟩
            rw [← hfr] at hprop
            exact hprop
          · have hset : (advanceClock
                (w.setFrame w.clockHand { tmpbuf with refbit := false })).getFrame j =
                w.getFrame j :=
              getFrame_setFrame_ne w w.clockHand j _ hjk
            rw [hset] at hfg
            exact ⟨fr, hfg, hprop⟩
        · split at h
          · -- pin-zero victim chosen at the hand
            rename_i hpin
            split at h
            · split at h
              · rename_i w2 hwp
                have hsh := writePage_shape w tmpbuf.file tmpbuf.pageNo tmpbuf.page
                rw [hwp] at hsh
                simp only [evictFrame] at h
                split at h
                · simp only [Prod.mk.injEq] at h
                  obtain ⟨h1, h2, h3⟩ := h
                  have hj : w2.clockHand = j := Option.some.inj h2
                  refine ⟨tmpbuf, ?_, Or.inr hpin⟩
                  rw [← hj, hsh.2.2.1]
                  exact heq
                · simp at h
              · simp at h
            · simp only [evictFrame] at h
              split at h
              · simp only [Prod.mk.injEq] at h
                obtain ⟨h1, h2, h3⟩ := h
                have hj : w.clockHand = j := Option.some.inj h2
                exact ⟨tmpbuf, hj ▸ heq, Or.inr hpin⟩
              · simp at h
          · -- pinned frame skipped
            obtain ⟨fr, hfg, hprop⟩ := ih _ _ _ _ h
            exact ⟨fr, hfg, hprop⟩

theorem flushFileLoop_pinned : ∀ (l : List Nat) (file : Option FileName) (w : World)
    (st : Status) (w1 : World) (i : Nat) (fr : Frame),
    flushFileLoop file l w = (st, w1) → w.getFrame i = some fr → 0 < fr.pinCnt →
    w1.getFrame i = some fr := by
  intro l
  induction l with
  | nil =>
    intro file w st w1 i fr h hg hp
    simp only [flushFileLoop, Prod.mk.injEq] at h
    rw [← h.2]
    exact hg
  | cons k rest ih =>
    intro file w st w1 i fr h hg hp
    simp only [flushFileLoop] at h
    split at h
    · exact ih _ _ _ _ _ _ h hg hp
    · rename_i frk heqk
      split at h
      · split at h
        · -- pinned frame of the file found: stop without mutating
          simp only [Prod.mk.injEq] at h
          rw [← h.2]
          exact hg
        · rename_i hnp
          have hne : i ≠ k := by
            intro hc
            rw [hc, heqk] at hg
            have hfr := Option.some.inj hg
            rw [← hfr] at hp
            omega
          split at h
          · split at h
            · rename_i w2 hwp
              have hsh := writePage_shape w frk.file frk.pageNo frk.page
              rw [hwp] at hsh
              have hg' : (flushInvalidate file
                  (w2.setFrame k { frk with dirty := false }) k).getFrame i = some fr := by
                rw [flushInvalidate_getFrame_ne file _ k i hne]
                rw [getFrame_setFrame_ne _ _ _ _ hne]
                rw [getFrame_bufTable_eq w2 w i hsh.2.1]
                exact hg
              exact ih _ _ _ _ _ _ h hg' hp
            · simp only [Prod.mk.injEq] at h
              rw [← h.2]
              exact hg
          · have hg' : (flushInvalidate file w k).getFrame i = some fr := by
              rw [flushInvalidate_getFrame_ne file w k i hne]
              exact hg
            exact ih _ _ _ _ _ _ h hg' hp
      · split at h
        · simp only [Prod.mk.injEq] at h
          rw [← h.2]
          exact hg
        · exact ih _ _ _ _ _ _ h hg hp

theorem disposePage_bufTable (w : World) (f : Option FileName) (p : Int) :
    (File.disposePage w f p).2.bufTable = w.bufTable := by
  unfold File.disposePage
  repeat' split
  all_goals rfl

/-- One public buffer-pool operation, as invoked by the heap layer. -/
inductive BufOp where
  | read (file : Option FileName) (pageNo : Int)
  | unpin (file : Option FileName) (pageNo : Int) (dirty : Bool)
  | alloc (file : Option FileName)
  | flush (file : Option FileName)
  | allocB
  | dispose (file : Option FileName) (pageNo : Int)

/-- The world after one buffer-pool operation (statuses and returned
handles discarded). -/
def applyOp (w : World) : BufOp → World
  | .read f p => (BufMgr.readPage w f p).2.2
  | .unpin f p d => (BufMgr.unPinPage w f p d).2
  | .alloc f => (BufMgr.allocPage w f).2.2.2
  | .flush f => (BufMgr.flushFile w f).2
  | .allocB => (BufMgr.allocBuf w).2.2
  | .dispose f p => (BufMgr.disposePage w f p).2

/-- Caller discipline: `disposePage` is never called on a pinned page. -/
def legal (w : World) : BufOp → Prop
  | .dispose f p =>
    ∀ k fr, hLookup w.hashTable (f, p) = some k → w.getFrame k = some fr → fr.pinCnt = 0
  | _ => True

/-- The world after a sequence of buffer-pool operations. -/
def applyOps (w : World) : List BufOp → World
  | [] => w
  | op :: rest => applyOps (applyOp w op) rest

/-- Every operation is legal and frame `i` is pinned at the moment each
operation is applied. -/
def pinnedThrough (i : Nat) : World → List BufOp → Prop
  | _, [] => True
  | w, op :: rest =>
    legal w op ∧ (∃ fr, w.getFrame i = some fr ∧ 0 < fr.pinCnt) ∧
    pinnedThrough i (applyOp w op) rest

theorem applyOp_pinned (w : World) (op : BufOp) (i : Nat) (fr : Frame)
    (hleg : legal w op) (hg : w.getFrame i = some fr) (hp : 0 < fr.pinCnt)
    (hv : fr.valid = true) :
    ∃ fr', (applyOp w op).getFrame i = some fr' ∧ fr'.file = fr.file ∧
      fr'.pageNo = fr.pageNo ∧ fr'.valid = true ∧ fr'.page = fr.page := by
  cases op with
  | read f p =>
    simp only [applyOp, BufMgr.readPage]
    split
    · rename_i frameNo hL
      split
      · rename_i fr0 hgf
        by_cases hif : i = frameNo
        · have hfr : fr0 = fr := by
            rw [hif, hgf] at hg
            exact Option.some.inj hg
          subst hfr
          refine ⟨{ fr0 with refbit := true, pinCnt := fr0.pinCnt + 1 }, ?_, rfl, rfl, hv, rfl⟩
          rw [hif]
          exact getFrame_setFrame_self w frameNo _ fr0 hgf
        · refine ⟨fr, ?_, rfl, rfl, hv, rfl⟩
          rw [getFrame_setFrame_ne w frameNo i _ hif]
          exact hg
      · exact ⟨fr, hg, rfl, rfl, hv, rfl⟩
    · split
      · rename_i x w1 heqa
        rcases allocBufLoop_pinned _ _ _ _ _ _ _ heqa hg hp with h1 | h1
        · exact ⟨fr, h1, rfl, rfl, hv, rfl⟩
        · exact ⟨{ fr with refbit := false }, h1, rfl, rfl, hv, rfl⟩
      · rename_i st w1 heqa
        rcases allocBufLoop_pinned _ _ _ _ _ _ _ heqa hg hp with h1 | h1
        · exact ⟨fr, h1, rfl, rfl, hv, rfl⟩
        · exact ⟨{ fr with refbit := false }, h1, rfl, rfl, hv, rfl⟩
      · rename_i ast frameNo w1 hgu heqa
        have hL1 := allocBufLoop_pinned _ _ _ _ _ _ _ heqa hg hp
        obtain ⟨frv, hgv, hpv⟩ := allocBufLoop_victim _ _ _ _ _ heqa
        have hne : i ≠ frameNo := by
          intro hc
          rw [hc, hgv] at hg
          have hfr := Option.some.inj hg
          rcases hpv with hvv | hvp
          · rw [hfr] at hvv
            rw [hvv] at hv
            cases hv
          · rw [← hfr] at hp
            omega
        have key : ∀ (wx : World), wx.getFrame i = w1.getFrame i →
            ∃ fr', wx.getFrame i = some fr' ∧ fr'.file = fr.file ∧
              fr'.pageNo = fr.pageNo ∧ fr'.valid = true ∧ fr'.page = fr.page := by
          intro wx hwx
          rcases hL1 with h1 | h1
          · exact ⟨fr, by rw [hwx]; exact h1, rfl, rfl, hv, rfl⟩
          · exact ⟨{ fr with refbit := false }, by rw [hwx]; exact h1, rfl, rfl, hv, rfl⟩
        split
        · rename_i pg heqr
          cases hgw : w1.getFrame frameNo with
          | some fr1 =>
            split
            · rename_i tbl heqi
              split
              · rename_i fr2 heqg2
                apply key
                rw [getFrame_setFrame_ne _ frameNo i _ hne]
                show (w1.setFrame frameNo { fr1 with page := pg }).getFrame i = w1.getFrame i
                rw [getFrame_setFrame_ne _ frameNo i _ hne]
              · apply key
                show (w1.setFrame frameNo { fr1 with page := pg }).getFrame i = w1.getFrame i
                rw [getFrame_setFrame_ne _ frameNo i _ hne]
            · apply key
              show (w1.setFrame frameNo { fr1 with page := pg }).getFrame i = w1.getFrame i
              rw [getFrame_setFrame_ne _ frameNo i _ hne]
          | none =>
            dsimp only
            split
            · rename_i tbl heqi
              split
              · rename_i fr2 heqg2
                apply key
                rw [getFrame_setFrame_ne _ frameNo i _ hne]
                rfl
              · exact key _ rfl
            · exact key _ rfl
        · exact key _ rfl
  | unpin f p d =>
    simp only [applyOp, BufMgr.unPinPage]
    split
    · exact ⟨fr, hg, rfl, rfl, hv, rfl⟩
    · rename_i frameNo hL
      split
      · exact ⟨fr, hg, rfl, rfl, hv, rfl⟩
      · rename_i fr0 hgf
        split
        · exact ⟨fr, hg, rfl, rfl, hv, rfl⟩
        · by_cases hif : i = frameNo
          · have hfr : fr0 = fr := by
              rw [hif, hgf] at hg
              exact Option.some.inj hg
            subst hfr
            refine ⟨{ fr0 with pinCnt := fr0.pinCnt - 1, dirty := fr0.dirty || d }, ?_, rfl,
              rfl, hv, rfl⟩
            rw [hif]
            exact getFrame_setFrame_self w frameNo _ fr0 hgf
          · refine ⟨fr, ?_, rfl, rfl, hv, rfl⟩
            rw [getFrame_setFrame_ne w frameNo i _ hif]
            exact hg
  | alloc f =>
    simp only [applyOp, BufMgr.allocPage]
    split
    · rename_i pageNo w1 heqa
      have hbt : w1.bufTable = w.bufTable := by
        have h2 := allocatePage_bufTable w f
        rw [heqa] at h2
        exact h2
      have hg1 : w1.getFrame i = some fr := by
        rw [getFrame_bufTable_eq w1 w i hbt]
        exact hg
      split
      · rename_i frameNo w2 heqb
        have hL1 := allocBufLoop_pinned _ _ _ _ _ _ _ heqb hg1 hp
        obtain ⟨frv, hgv, hpv⟩ := allocBufLoop_victim _ _ _ _ _ heqb
        have hne : i ≠ frameNo := by
          intro hc
          rw [hc, hgv] at hg1
          have hfr := Option.some.inj hg1
          rcases hpv with hvv | hvp
          · rw [hfr] at hvv
            rw [hvv] at hv
            cases hv
          · rw [← hfr] at hp
            omega
        have key : ∀ (wx : World), wx.getFrame i = w2.getFrame i →
            ∃ fr', wx.getFrame i = some fr' ∧ fr'.file = fr.file ∧
              fr'.pageNo = fr.pageNo ∧ fr'.valid = true ∧ fr'.page = fr.page := by
          intro wx hwx
          rcases hL1 with h1 | h1
          · exact ⟨fr, by rw [hwx]; exact h1, rfl, rfl, hv, rfl⟩
          · exact ⟨{ fr with refbit := false }, by rw [hwx]; exact h1, rfl, rfl, hv, rfl⟩
        split
        · rename_i tbl heqi
          split
          · rename_i fr2 heqg
            apply key
            rw [getFrame_setFrame_ne _ frameNo i _ hne]
            rfl
          · exact key _ rfl
        · exact key _ rfl
      · rename_i w2 heqb
        rcases allocBufLoop_pinned _ _ _ _ _ _ _ heqb hg1 hp with h1 | h1
        · exact ⟨fr, h1, rfl, rfl, hv, rfl⟩
        · exact ⟨{ fr with refbit := false }, h1, rfl, rfl, hv, rfl⟩
      · rename_i st x w2 heqb
        rcases allocBufLoop_pinned _ _ _ _ _ _ _ heqb hg1 hp with h1 | h1
        · exact ⟨fr, h1, rfl, rfl, hv, rfl⟩
        · exact ⟨{ fr with refbit := false }, h1, rfl, rfl, hv, rfl⟩
    · rename_i st pageNo w1 hgu heqa
      have hbt : w1.bufTable = w.bufTable := by
        have h2 := allocatePage_bufTable w f
        rw [heqa] at h2
        exact h2
      refine ⟨fr, ?_, rfl, rfl, hv, rfl⟩
      rw [getFrame_bufTable_eq w1 w i hbt]
      exact hg
  | flush f =>
    simp only [applyOp, BufMgr.flushFile]
    rcases hfl : flushFileLoop f (List.range w.numBufs) w with ⟨st, w1⟩
    exact ⟨fr, flushFileLoop_pinned _ f w st w1 i fr hfl hg hp, rfl, rfl, hv, rfl⟩
  | allocB =>
    simp only [applyOp]
    rcases hab : BufMgr.allocBuf w with ⟨st, fo, w1⟩
    rcases allocBufLoop_pinned _ _ _ _ _ _ _ hab hg hp with h1 | h1
    · exact ⟨fr, h1, rfl, rfl, hv, rfl⟩
    · exact ⟨{ fr with refbit := false }, h1, rfl, rfl, hv, rfl⟩
  | dispose f p =>
    simp only [applyOp, BufMgr.disposePage]
    split
    · rename_i k hL
      split
      · rename_i frk hgk
        have hk0 : frk.pinCnt = 0 := hleg k frk hL hgk
        have hne : i ≠ k := by
          intro hc
          rw [hc, hgk] at hg
          have hfr := Option.some.inj hg
          rw [← hfr] at hp
          omega
        refine ⟨fr, ?_, rfl, rfl, hv, rfl⟩
        rw [getFrame_bufTable_eq _ _ i (disposePage_bufTable _ f p)]
        show (w.setFrame k frk.Clear).getFrame i = some fr
        rw [getFrame_setFrame_ne w k i _ hne]
        exact hg
      · refine ⟨fr, ?_, rfl, rfl, hv, rfl⟩
        rw [getFrame_bufTable_eq _ _ i (disposePage_bufTable _ f p)]
        exact hg
    · refine ⟨fr, ?_, rfl, rfl, hv, rfl⟩
      rw [getFrame_bufTable_eq _ _ i (disposePage_bufTable _ f p)]
      exact hg

/-- C2.  Eviction safety.  In the `allocBuf` clock walk a valid frame with
its refbit set is only refbit-cleared and skipped, and a valid pinned
frame is skipped untouched, so a frame is evicted only when
`valid ∧ ¬refbit ∧ pinCnt == 0`; whenever `allocBuf` selects a frame, that
frame was invalid or had `pinCnt = 0` (no pinned valid frame is ever
chosen); under any single legal buffer-pool operation (`disposePage` never
on a pinned page) a pinned valid frame keeps its `(file, pageNo)`
identity, its valid bit and its page contents; and the same holds across
any sequence of legal operations throughout which the frame stays
pinned. -/
theorem eviction_safety :
    (∀ (w : World) (fuel : Nat) (tmpbuf : Frame),
      w.getFrame w.clockHand = some tmpbuf → tmpbuf.valid = true → tmpbuf.refbit = true →
      allocBufLoop (fuel + 1) w =
        allocBufLoop fuel
          (advanceClock (w.setFrame w.clockHand { tmpbuf with refbit := false })))
    ∧ (∀ (w : World) (fuel : Nat) (tmpbuf : Frame),
      w.getFrame w.clockHand = some tmpbuf → tmpbuf.valid = true → tmpbuf.refbit = false →
      0 < tmpbuf.pinCnt →
      allocBufLoop (fuel + 1) w = allocBufLoop fuel (advanceClock w))
    ∧ (∀ (w : World) (st : Status) (j : Nat) (w1 : World),
      BufMgr.allocBuf w = (st, some j, w1) →
      ∃ fr, w.getFrame j = some fr ∧ (fr.valid = false ∨ fr.pinCnt = 0))
    ∧ (∀ (w : World) (op : BufOp) (i : Nat) (fr : Frame),
      legal w op → w.getFrame i = some fr → 0 < fr.pinCnt → fr.valid = true →
      ∃ fr', (applyOp w op).getFrame i = some fr' ∧ fr'.file = fr.file ∧
        fr'.pageNo = fr.pageNo ∧ fr'.valid = true ∧ fr'.page = fr.page)
    ∧ (∀ (ops : List BufOp) (w : World) (i : Nat) (fr : Frame),
      pinnedThrough i w ops → w.getFrame i = some fr → fr.valid = true →
      ∃ fr', (applyOps w ops).getFrame i = some fr' ∧ fr'.file = fr.file ∧
        fr'.pageNo = fr.pageNo ∧ fr'.valid = true ∧ fr'.page = fr.page) := by
  refine ⟨?_, ?_, ?_, ?_, ?_⟩
  · intro w fuel tmpbuf hg hval hrb
    simp [allocBufLoop, hg, hval, hrb]
  · intro w fuel tmpbuf hg hval hrb hp
    have hnz : tmpbuf.pinCnt ≠ 0 := Nat.pos_iff_ne_zero.mp hp
    simp [allocBufLoop, hg, hval, hrb, hnz]
  · intro w st j w1 h
    exact allocBufLoop_victim _ _ _ _ _ h
  · intro w op i fr hleg hg hp hv
    exact applyOp_pinned w op i fr hleg hg hp hv
  · intro ops
    induction ops with
    | nil =>
      intro w i fr hpt hg hv
      exact ⟨fr, hg, rfl, rfl, hv, rfl⟩
    | cons op rest ih =>
      intro w i fr hpt hg hv
      obtain ⟨hleg, ⟨fr0, hg0, hp0⟩, htail⟩ := hpt
      have hfr : fr0 = fr := by
        rw [hg0] at hg
        exact Option.some.inj hg
      rw [hfr] at hp0
      obtain ⟨fr1, hg1, hf1, hpn1, hv1, hpg1⟩ := applyOp_pinned w op i fr hleg hg hp0 hv
      obtain ⟨fr2, hg2, hf2, hpn2, hv2, hpg2⟩ := ih (applyOp w op) i fr1 htail hg1 hv1
      exact ⟨fr2, hg2, by rw [hf2, hf1], by rw [hpn2, hpn1], hv2, by rw [hpg2, hpg1]⟩

/-- A valid frame with its refbit set, under the clock hand. -/
def frC2a : Frame := ⟨some [4], 2, 1, false, true, true, .raw⟩

/-- A one-frame world with `frC2a` at the hand. -/
def wC2a : World := ⟨1, [frC2a], 0, [((some [4], 2), 0)], []⟩

/-- A valid pinned frame with its refbit clear. -/
def frC2b : Frame := ⟨some [4], 2, 1, false, false, true, .raw⟩

/-- A one-frame world with `frC2b` at the hand. -/
def wC2b : World := ⟨1, [frC2b], 0, [((some [4], 2), 0)], []⟩

/-- The pinned valid frame 0 of `wC5`. -/
def frC2p : Frame := ⟨some [5], 2, 1, false, false, true, .data dC5⟩

/-- `frC2p` after one more `readPage` pin. -/
def frC2p2 : Frame := ⟨some [5], 2, 2, false, true, true, .data dC5⟩

/-- Witness for C2: the refbit-clearing skip, the pinned skip, a concrete
selection (only the invalid frame 1 of `wC5` is chosen), single-operation
preservation for a `readPage` on the pinned frame, and sequence
preservation across a pin/unpin pair. -/
theorem eviction_safety_witness :
    (wC2a.getFrame wC2a.clockHand = some frC2a ∧ frC2a.valid = true ∧ frC2a.refbit = true ∧
      allocBufLoop 3 wC2a =
        allocBufLoop 2
          (advanceClock (wC2a.setFrame wC2a.clockHand { frC2a with refbit := false })))
    ∧ (0 < frC2b.pinCnt ∧ allocBufLoop 2 wC2b = allocBufLoop 1 (advanceClock wC2b))
    ∧ (BufMgr.allocBuf wC5 = (.OK, some 1, wC5) ∧
      (∃ fr, wC5.getFrame 1 = some fr ∧ (fr.valid = false ∨ fr.pinCnt = 0)))
    ∧ (∃ fr', (applyOp wC5 (.read (some [5]) 2)).getFrame 0 = some fr' ∧
        fr'.file = frC2p.file ∧ fr'.pageNo = frC2p.pageNo ∧ fr'.valid = true ∧
        fr'.page = frC2p.page)
    ∧ (∃ fr', (applyOps wC5 [.read (some [5]) 2, .unpin (some [5]) 2 true]).getFrame 0 =
        some fr' ∧ fr'.file = frC2p.file ∧ fr'.pageNo = frC2p.pageNo ∧ fr'.valid = true ∧
        fr'.page = frC2p.page) :=
  ⟨⟨by decide, by decide, by decide,
    eviction_safety.1 wC2a 2 frC2a (by decide) (by decide) (by decide)⟩,
   ⟨by decide, eviction_safety.2.1 wC2b 1 frC2b (by decide) (by decide) (by decide) (by decide)⟩,
   ⟨by decide, eviction_safety.2.2.1 wC5 .OK 1 wC5 (by decide)⟩,
   eviction_safety.2.2.2.1 wC5 (.read (some [5]) 2) 0 frC2p trivial (by decide) (by decide)
     (by decide),
   eviction_safety.2.2.2.2 [.read (some [5]) 2, .unpin (some [5]) 2 true] wC5 0 frC2p
     ⟨trivial, ⟨frC2p, by decide, by decide⟩, trivial, ⟨frC2p2, by decide, by decide⟩, trivial⟩
     (by decide) (by decide)⟩

end Minirel
